import Mathlib

/-!
# Verification of the generic reduction engine (`reduction.c`)

This file gives a shallow embedding, in Lean 4, of the generic
axis-reduction engine of `numpy/core/src/multiarray/reduction.c` vintage
(masked "NA" arrays).  Arrays are modelled by their shape / stride / data
origin descriptors; the NA-mask memory is modelled as a function from byte
addresses to an exposure bit.  Machine integers are modelled by `Nat` / `Int`
(shapes are non-negative, strides and byte offsets are signed); none of the
quantities involved can overflow in the C code for the inputs considered
here, so no wrap-around modelling is needed.

External collaborators that live in other translation units (the stride-perm
sort, `PyArray_ContainsNA`, the mask reducer, the iterator's broadcast
shape) are modelled from the specification; each such definition carries a
doc comment saying so.  Everything else is translated from the C source.
-/

/-! ## Basic index bookkeeping -/

/-- All multi-indices of an array of the given shape, in row-major order.
This is the canonical iteration order used by the element-level model. -/
def enumIndices : List Nat → List (List Nat)
  | [] => [[]]
  | n :: rest => (List.range n).flatMap (fun i => (enumIndices rest).map (i :: ·))

/-- The output cell an operand element maps to: flagged (reduced) coordinates
collapse to 0, the others are kept. -/
def cellOf (axis_flags : List Bool) (idx : List Nat) : List Nat :=
  List.zipWith (fun f i => if f then 0 else i) axis_flags idx

/-- The shape of a reduction result before squeezing: flagged axes become
size 1, the others keep the operand's size. -/
def reducedShape (axis_flags : List Bool) (shape : List Nat) : List Nat :=
  List.zipWith (fun f n => if f then 1 else n) axis_flags shape

/-- Byte offset of a multi-index given per-axis strides. -/
def dotIS (idx : List Nat) (strides : List Int) : Int :=
  (List.zipWith (fun i s => (i : Int) * s) idx strides).sum

/-- The number of axes selected for reduction. -/
def numReduceAxes (axis_flags : List Bool) : Nat :=
  axis_flags.countP (fun f => f)

/-- Drop the entries of `xs` sitting at flagged positions
(`PyArray_RemoveAxesInPlace` on one descriptor component). -/
def dropFlagged {α : Type} : List Bool → List α → List α
  | [], xs => xs
  | _ :: _, [] => []
  | f :: fs, x :: xs => if f then dropFlagged fs xs else x :: dropFlagged fs xs

/-! ## The array descriptor -/

/-- Descriptor of an `NDArray` (`PyArrayObject`): shape, per-axis byte
strides, byte offset of the data origin, and the optional NA mask channel
(its own strides and data origin).  The actual element data is not part of
the descriptor; mask bytes are read through an ambient memory function
`mmask : Int → Bool` (`true` = exposed). -/
structure Arr where
  shape : List Nat
  strides : List Int
  dataOff : Int
  hasMask : Bool
  masknaStrides : List Int
  masknaOff : Int
deriving DecidableEq, Repr

/-- Whether the operand element at `idx` is exposed (not NA), reading the
mask memory through the array's mask strides. -/
def exposedAt (a : Arr) (mmask : Int → Bool) (idx : List Nat) : Bool :=
  mmask (a.masknaOff + dotIS idx a.masknaStrides)

/-! ## `allocate_reduce_result` -/

/-- Magnitude of the stride of axis `i`. -/
def magOf (strides : List Int) (i : Nat) : Nat :=
  (strides.getD i 0).natAbs

/-- Stable descending insertion by stride magnitude (helper for the
stride-perm sort). -/
def insertByStride (strides : List Int) (i : Nat) : List Nat → List Nat
  | [] => [i]
  | j :: rest =>
      if magOf strides j < magOf strides i then i :: j :: rest
      else j :: insertByStride strides i rest

/-- Modelled from the spec: `PyArray_CreateSortedStridePerm` (defined in
another translation unit of this repository) sorts all axes by the operand's
stride magnitude, largest first, preserving axis order among ties. -/
def createSortedStridePerm (n : Nat) (strides : List Int) : List Nat :=
  (List.range n).foldr (insertByStride strides) []

/-- The stride/shape-building loop of `allocate_reduce_result`: the C code
walks `strideperm` from the innermost (smallest magnitude) axis outwards; we
therefore recurse over the reversed permutation.  Flagged axes get size 1
and stride 0; each non-flagged axis gets the running stride, which is then
multiplied by that axis's size. -/
def allocLoop (arr_shape : List Nat) (axis_flags : List Bool) :
    List Nat → List Nat → List Int → Nat → (List Nat × List Int)
  | [], shape, strides, _ => (shape, strides)
  | i :: rest, shape, strides, stride =>
      if axis_flags.getD i false then
        allocLoop arr_shape axis_flags rest (shape.set i 1) (strides.set i 0) stride
      else
        allocLoop arr_shape axis_flags rest shape (strides.set i (stride : Int))
          (stride * arr_shape.getD i 1)

/-- `allocate_reduce_result`: a fresh result array with the operand's number
of dimensions, size 1 / stride 0 on flagged axes, and contiguous strides on
the remaining axes following the operand's memory order.  No NA mask is
attached here (that is the caller's responsibility). -/
def allocate_reduce_result (arr : Arr) (axis_flags : List Bool) (elsize : Nat) : Arr :=
  let perm := createSortedStridePerm arr.shape.length arr.strides
  let p := allocLoop arr.shape axis_flags perm.reverse arr.shape
      (List.replicate arr.shape.length 0) elsize
  { shape := p.1, strides := p.2, dataOff := 0,
    hasMask := false, masknaStrides := [], masknaOff := 0 }

/-! ## Errors -/

/-- The error taxonomy of the engine (§7 of the design): configuration
problems, output shape mismatches, missing mask support, empty no-identity
reductions, fully-NA no-identity skipna reductions, a non-reorderable
reduction given several axes, and unimplemented features. -/
inductive RErr where
  | configError
  | shapeError
  | maskSupport
  | emptyReduction
  | allMissing
  | nonReorderable
  | unimplemented
deriving DecidableEq, Repr

/-! ## `conform_reduce_result` and `PyArray_CreateReduceResult` -/

/-- Interleave helper for `conform_reduce_result`: walk the axis flags; a
flagged position receives the `filler` entry (size 1 / stride 0), a
non-flagged position consumes the next entry of the output's own list.
`none` when the output has too few or too many dimensions. -/
def interleave {α : Type} (filler : α) : List Bool → List α → Option (List α)
  | [], [] => some []
  | [], _ :: _ => none
  | f :: fs, ds =>
      if f then (interleave filler fs ds).map (filler :: ·)
      else
        match ds with
        | [] => none
        | d :: ds' => (interleave filler fs ds').map (d :: ·)

/-- `conform_reduce_result`: conform a caller-supplied output to the
operand's dimensionality.  With `keepdims` the output must already have the
operand's number of dimensions with size-1 flagged axes and is returned
unchanged; otherwise a view is built interleaving size-1 / stride-0 entries
at the flagged positions (and similarly for the output's mask strides when
it carries a mask). -/
def conform_reduce_result (ndim : Nat) (axis_flags : List Bool)
    (out : Arr) (keepdims : Bool) : Except RErr Arr :=
  if keepdims then
    if out.shape.length ≠ ndim then .error .shapeError
    else if ¬ (∀ i ∈ List.range ndim, axis_flags.getD i false → out.shape.getD i 0 = 1) then
      .error .shapeError
    else .ok out
  else
    match interleave 1 axis_flags out.shape, interleave (0 : Int) axis_flags out.strides with
    | some shape, some strides =>
        if out.hasMask then
          match interleave (0 : Int) axis_flags out.masknaStrides with
          | some ms =>
              .ok { shape := shape, strides := strides, dataOff := out.dataOff,
                    hasMask := true, masknaStrides := ms, masknaOff := out.masknaOff }
          | none => .error .shapeError
        else
          .ok { shape := shape, strides := strides, dataOff := out.dataOff,
                hasMask := false, masknaStrides := [], masknaOff := 0 }
    | _, _ => .error .shapeError

/-- `PyArray_CreateReduceResult`: allocate a fresh result (attaching an NA
mask when requested) or conform the caller-supplied output, in which case
the output must already carry a mask when one is required. -/
def PyArray_CreateReduceResult (operand : Arr) (out : Option Arr)
    (axis_flags : List Bool) (need_namask keepdims : Bool) (elsize : Nat) :
    Except RErr Arr :=
  match out with
  | none =>
      let result := allocate_reduce_result operand axis_flags elsize
      .ok (if need_namask then { result with hasMask := true } else result)
  | some o =>
      if need_namask ∧ ¬o.hasMask then .error .maskSupport
      else conform_reduce_result operand.shape.length axis_flags o keepdims

/-! ## The scattered seeder (`initialize_reduce_result_noidentity_skipna`) -/

/-- Outcome of the scattered seeder: the list of (output cell, value)
copies in the order they were made, the exposure function of the returned
private operand view's mask, and whether the result's mask was set to all
exposed. -/
structure SeederOut (V : Type) where
  assigns : List (List Nat × V)
  opViewExposed : List Nat → Bool
  resultMaskSetExposed : Bool

/-- The seeding loop of `initialize_reduce_result_noidentity_skipna`,
element by element in iteration order: an exposed element whose output cell
is not yet seeded is copied into that cell and the countdown of unseeded
cells is decremented; the loop stops early once it reaches zero.  Note that,
exactly as in the C loop, nothing is written to the operand's mask. -/
def seedLoop {V : Type} (axis_flags : List Bool) (exposed : List Nat → Bool)
    (value : List Nat → V) :
    List (List Nat) → List (List Nat × V) → Nat → (List (List Nat × V) × Nat)
  | [], assigns, countdown => (assigns, countdown)
  | idx :: rest, assigns, countdown =>
      if exposed idx && !(assigns.any (fun a => a.1 == cellOf axis_flags idx)) then
        let assigns' := assigns ++ [(cellOf axis_flags idx, value idx)]
        if countdown - 1 = 0 then (assigns', 0)
        else seedLoop axis_flags exposed value rest assigns' (countdown - 1)
      else seedLoop axis_flags exposed value rest assigns countdown

/-- `initialize_reduce_result_noidentity_skipna`, element-level model.  The C
function takes a view of the operand with its own copy of the NA mask,
allocates one "initialized" flag per output cell, then runs the seeding
loop over the joint (operand view, result, flags) iteration; if any output
cell remains unseeded it raises the all-NA error, otherwise it sets the
result's mask (when present) to all exposed and returns the private operand
view.  The returned view's exposure function is the untouched mask copy:
the C loop contains no store to `op_namask_d`, so the seeded elements stay
exposed in the returned view. -/
def initialize_reduce_result_noidentity_skipna {V : Type}
    (operandShape : List Nat) (resultHasMask : Bool) (ncells : Nat)
    (axis_flags : List Bool) (exposed : List Nat → Bool) (value : List Nat → V) :
    Except RErr (SeederOut V) :=
  let p := seedLoop axis_flags exposed value (enumIndices operandShape) [] ncells
  if p.2 ≠ 0 then .error .allMissing
  else .ok { assigns := p.1, opViewExposed := exposed,
             resultMaskSetExposed := resultHasMask }

/-! ## `PyArray_InitializeReduceResult` -/

/-- Outcome of the no-identity initializer: the view that was copied into
the result (absent when the scattered seeder did elementwise copies), the
remainder view on which the main loop still has to run, and the
skip-first count handed to the main loop. -/
structure InitOut where
  copySrc : Option Arr
  usedScattered : Bool
  opView : Arr
  skipFirstCount : Nat
deriving DecidableEq, Repr

/-- The 1-D skipna scan: number of leading hidden elements (at most `n`),
reading mask bytes starting at `mOff` with stride `mStride`. -/
def scanSkip (mmask : Int → Bool) (mOff mStride : Int) : Nat → Nat
  | 0 => 0
  | n + 1 => if mmask mOff then 0 else scanSkip mmask (mOff + mStride) mStride n + 1

/-- The common tail of `PyArray_InitializeReduceResult`: copy the index-0
subarray along every reduction axis of `opView` into the result
(`copySrc` is that subarray view, assigned with `preservena` set), then
shrink the view by one along a single reduction axis, empty it when no axis
is reduced, or — for several reduction axes — return the whole original
operand with the skip-first count set to the number of output cells. -/
def initCommonTail (operand : Arr) (axis_flags : List Bool)
    (opView result : Arr) : Except RErr InitOut :=
  let shape_orig := opView.shape
  let copySrc : Arr := { opView with shape := reducedShape axis_flags shape_orig }
  let nreduce := numReduceAxes axis_flags
  if nreduce = 1 then
    let dataAdv := (List.zipWith (fun f s => if f then s else 0) axis_flags opView.strides).sum
    let maskAdv :=
      if opView.hasMask then
        (List.zipWith (fun f s => if f then s else 0) axis_flags opView.masknaStrides).sum
      else 0
    .ok { copySrc := some copySrc, usedScattered := false,
          opView := { opView with
            shape := List.zipWith (fun f d => if f then d - 1 else d) axis_flags shape_orig,
            dataOff := opView.dataOff + dataAdv,
            masknaOff := opView.masknaOff + maskAdv },
          skipFirstCount := 0 }
  else if nreduce = 0 then
    .ok { copySrc := some copySrc, usedScattered := false,
          opView := { opView with shape := List.replicate shape_orig.length 0 },
          skipFirstCount := 0 }
  else
    .ok { copySrc := some copySrc, usedScattered := false,
          opView := operand, skipFirstCount := result.shape.prod }

/-- `PyArray_InitializeReduceResult`: initialize a no-identity reduction.
After the non-reorderable axis check, either (no skipna or no mask) reject
empty operands and run the copy-and-shrink tail on a plain view, or (skipna
with a mask, 1-D) scan past the leading hidden elements — all hidden is the
all-NA error — and run the same tail on the shrunk view, or (skipna with a
mask, 2+ dimensions) delegate to the scattered seeder, which returns the
private operand view with skip-first count 0. -/
def PyArray_InitializeReduceResult (result operand : Arr)
    (axis_flags : List Bool) (reorderable skipna : Bool)
    (mmask : Int → Bool) : Except RErr InitOut :=
  if ¬reorderable ∧ 2 ≤ numReduceAxes axis_flags then .error .nonReorderable
  else if ¬skipna ∨ ¬operand.hasMask then
    if operand.shape.prod = 0 then .error .emptyReduction
    else initCommonTail operand axis_flags operand result
  else if operand.shape.length = 1 then
    let n := operand.shape.headD 0
    let mstride := operand.masknaStrides.headD 0
    let j := scanSkip mmask operand.masknaOff mstride n
    if n - j = 0 then .error .allMissing
    else
      initCommonTail operand axis_flags
        { operand with
          shape := [n - j],
          dataOff := operand.dataOff + j * operand.strides.headD 0,
          masknaOff := operand.masknaOff + j * mstride } result
  else
    match initialize_reduce_result_noidentity_skipna (V := List Nat)
        operand.shape result.hasMask result.shape.prod axis_flags
        (exposedAt operand mmask) (fun i => i) with
    | .error e => .error e
    | .ok _ =>
        .ok { copySrc := none, usedScattered := true,
              opView := operand, skipFirstCount := 0 }

/-! ## `PyArray_ReduceWrapper` -/

/-- Observable steps of a reduction call, in order: result
allocation / output conformance, the pre-reduction of the NA mask, the
identity fill, the copy of the first sub-array, the scattered seeding pass,
and the run of the main inner loop. -/
inductive Ev where
  | allocResult
  | conformResult
  | maskReduce
  | identityFill
  | copyFirst
  | scatterSeed
  | loopRun
deriving DecidableEq, Repr

/-- Which of the three pluggable inner-loop shapes was run. -/
inductive LoopVariant where
  | unmasked
  | masked
  | advancedMasked
deriving DecidableEq, Repr

/-- The input handed to the selected inner loop: the loop variant, the
remainder view of the operand, and the skip-first count. -/
structure LoopCall where
  variant : LoopVariant
  opView : Arr
  skipFirstCount : Nat
deriving DecidableEq, Repr

/-- Result of a successful reduction call: the array returned to the
caller and the inner-loop invocation (`none` when the main loop was
skipped). -/
structure WrapOut where
  result : Arr
  loopCall : Option LoopCall
deriving DecidableEq, Repr

/-- Decidable equality of `Except` outcomes (needed so that concrete runs
of the wrapper can be checked by evaluation). -/
instance {ε α : Type} [DecidableEq ε] [DecidableEq α] : DecidableEq (Except ε α) := fun
  | .error e, .error e' =>
      if h : e = e' then .isTrue (congrArg Except.error h)
      else .isFalse (fun hc => h (Except.error.inj hc))
  | .error _, .ok _ => .isFalse (fun hc => Except.noConfusion hc)
  | .ok _, .error _ => .isFalse (fun hc => Except.noConfusion hc)
  | .ok a, .ok a' =>
      if h : a = a' then .isTrue (congrArg Except.ok h)
      else .isFalse (fun hc => h (Except.ok.inj hc))

/-- A reduction call's trace of steps together with its outcome. -/
structure WrapRes where
  trace : List Ev
  outcome : Except RErr WrapOut
deriving DecidableEq, Repr

/-- Modelled from the spec: `PyArray_ContainsNA` (another translation unit)
reports whether the array holds any hidden element. -/
def PyArray_ContainsNA (a : Arr) (mmask : Int → Bool) : Bool :=
  a.hasMask && (enumIndices a.shape).any (fun idx => !(exposedAt a mmask idx))

/-- Modelled from the spec: the generic Iterator broadcasts the operands'
shapes dimension by dimension; a size-1 dimension stretches to the other
operand's size. -/
def broadcastDim (a b : Nat) : Nat :=
  if a = 1 then b else a

/-- Modelled from the spec: the MaskReducer makes an output cell exposed
iff any contributing element is exposed, so a single-cell result is fully
hidden exactly when no operand element is exposed.  This is the guard of
the all-NA short circuit of the orchestrator. -/
def shortCircuitAllNA (operand result : Arr) (mmask : Int → Bool)
    (has_advanced_masked_loop : Bool) : Bool :=
  !has_advanced_masked_loop && result.shape.prod == 1 &&
    !((enumIndices operand.shape).any (fun idx => exposedAt operand mmask idx))

/-- Finalization of the wrapper: with a caller-supplied output, return that
exact output; otherwise strip the size-1 reduced axes unless `keepdims`. -/
def removeAxes (a : Arr) (axis_flags : List Bool) : Arr :=
  { a with
    shape := dropFlagged axis_flags a.shape,
    strides := dropFlagged axis_flags a.strides,
    masknaStrides := dropFlagged axis_flags a.masknaStrides }

/-- The `finish:` block of `PyArray_ReduceWrapper`. -/
def finishResult (out : Option Arr) (keepdims : Bool)
    (axis_flags : List Bool) (result : Arr) : Arr :=
  match out with
  | some o => o
  | none => if keepdims then result else removeAxes result axis_flags

/-- The iterator setup and inner-loop dispatch of `PyArray_ReduceWrapper`:
skip the loop when the broadcast iteration is empty, otherwise run the
unmasked loop (no mask in use), the advanced masked loop (mask in use, NAs
propagating, advanced loop supplied) or the regular masked loop; a missing
required loop variant is a configuration error. -/
def wrapperLoop (use_maskna : Bool) (out : Option Arr)
    (keepdims skipna : Bool) (axis_flags : List Bool)
    (has_loop has_masked_loop has_advanced_masked_loop : Bool)
    (tr : List Ev) (result opView : Arr) (skip : Nat) : WrapRes :=
  let itersize := (List.zipWith broadcastDim result.shape opView.shape).prod
  if itersize = 0 then
    { trace := tr,
      outcome := .ok { result := finishResult out keepdims axis_flags result,
                       loopCall := none } }
  else if !use_maskna then
    if !has_loop then { trace := tr, outcome := .error .configError }
    else
      { trace := tr ++ [Ev.loopRun],
        outcome := .ok { result := finishResult out keepdims axis_flags result,
                         loopCall := some ⟨.unmasked, opView, skip⟩ } }
  else if !skipna && has_advanced_masked_loop then
    { trace := tr ++ [Ev.loopRun],
      outcome := .ok { result := finishResult out keepdims axis_flags result,
                       loopCall := some ⟨.advancedMasked, opView, skip⟩ } }
  else
    if !has_masked_loop then { trace := tr, outcome := .error .configError }
    else
      { trace := tr ++ [Ev.loopRun],
        outcome := .ok { result := finishResult out keepdims axis_flags result,
                         loopCall := some ⟨.masked, opView, skip⟩ } }

/-- The initialization step of `PyArray_ReduceWrapper`.  With an identity,
check the non-reorderable axis restriction and fill the result with the
identity (the `assign_identity` collaborator is modelled from the spec:
it fills every result cell, exposed and hidden alike); otherwise run the
no-identity initializer, skipping the main loop when the remainder view is
empty. -/
def wrapperInit (use_maskna : Bool) (operand : Arr) (out : Option Arr)
    (axis_flags : List Bool) (reorderable skipna keepdims : Bool)
    (has_assign_identity has_loop has_masked_loop has_advanced_masked_loop : Bool)
    (mmask : Int → Bool) (tr : List Ev) (result : Arr) : WrapRes :=
  if has_assign_identity then
    if ¬reorderable ∧ 2 ≤ numReduceAxes axis_flags then
      { trace := tr, outcome := .error .nonReorderable }
    else
      wrapperLoop use_maskna out keepdims skipna axis_flags
        has_loop has_masked_loop has_advanced_masked_loop
        (tr ++ [Ev.identityFill]) result operand 0
  else
    match PyArray_InitializeReduceResult result operand axis_flags
        reorderable skipna mmask with
    | .error e => { trace := tr, outcome := .error e }
    | .ok io =>
        let tr' := tr ++ (if io.usedScattered then [Ev.scatterSeed] else [Ev.copyFirst])
        if io.opView.shape.prod = 0 then
          { trace := tr',
            outcome := .ok { result := finishResult out keepdims axis_flags result,
                             loopCall := none } }
        else
          wrapperLoop use_maskna out keepdims skipna axis_flags
            has_loop has_masked_loop has_advanced_masked_loop
            tr' result io.opView io.skipFirstCount

/-- The body of `PyArray_ReduceWrapper` once `use_maskna` has been settled:
create/conform the result, pre-reduce the NA mask when masking is active
and NAs propagate (with the all-NA single-cell short circuit), then
initialize and run the main loop. -/
def reduceWrapperMain (use_maskna : Bool) (operand : Arr) (out : Option Arr)
    (axis_flags : List Bool) (reorderable skipna keepdims : Bool)
    (has_assign_identity has_loop has_masked_loop has_advanced_masked_loop : Bool)
    (mmask : Int → Bool) (elsize : Nat) : WrapRes :=
  match PyArray_CreateReduceResult operand out axis_flags
      (use_maskna && !skipna) keepdims elsize with
  | .error e => { trace := [], outcome := .error e }
  | .ok result =>
    let tr0 := [if out.isSome then Ev.conformResult else Ev.allocResult]
    if use_maskna && !skipna then
      let tr1 := tr0 ++ [Ev.maskReduce]
      if shortCircuitAllNA operand result mmask has_advanced_masked_loop then
        { trace := tr1,
          outcome := .ok { result := finishResult out keepdims axis_flags result,
                           loopCall := none } }
      else
        wrapperInit use_maskna operand out axis_flags reorderable skipna keepdims
          has_assign_identity has_loop has_masked_loop has_advanced_masked_loop
          mmask tr1 result
    else
      wrapperInit use_maskna operand out axis_flags reorderable skipna keepdims
        has_assign_identity has_loop has_masked_loop has_advanced_masked_loop
        mmask tr0 result

/-- `PyArray_ReduceWrapper`: reject the not-yet-supported where-mask and
multi-NA options, then — when the operand is masked, NAs propagate and the
supplied output is unmasked — either fail if the operand holds a hidden
element or drop masking for the whole call, and finally run the main body. -/
def PyArray_ReduceWrapper (operand : Arr) (out : Option Arr)
    (has_wheremask : Bool) (axis_flags : List Bool)
    (reorderable skipna has_skipwhichna keepdims : Bool)
    (has_assign_identity has_loop has_masked_loop has_advanced_masked_loop : Bool)
    (mmask : Int → Bool) (elsize : Nat) : WrapRes :=
  if has_wheremask then { trace := [], outcome := .error .configError }
  else if has_skipwhichna then { trace := [], outcome := .error .configError }
  else
    match out with
    | some o =>
        if operand.hasMask && !skipna && !o.hasMask then
          if PyArray_ContainsNA operand mmask then
            { trace := [], outcome := .error .maskSupport }
          else
            reduceWrapperMain false operand (some o) axis_flags reorderable skipna
              keepdims has_assign_identity has_loop has_masked_loop
              has_advanced_masked_loop mmask elsize
        else
          reduceWrapperMain operand.hasMask operand (some o) axis_flags reorderable
            skipna keepdims has_assign_identity has_loop has_masked_loop
            has_advanced_masked_loop mmask elsize
    | none =>
        reduceWrapperMain operand.hasMask operand none axis_flags reorderable
          skipna keepdims has_assign_identity has_loop has_masked_loop
          has_advanced_masked_loop mmask elsize

/-! ## `PyArray_CountReduceItems` -/

/-- Result of the element counter: a scalar (no mask, or NAs propagate) or
a counts array with its per-cell count function. -/
inductive CountOut where
  | scalar (count : Nat)
  | counts (result : Arr) (fn : List Nat → Nat)

/-- Whether the counter returned a counts array. -/
def CountOut.isCounts : CountOut → Bool
  | .scalar _ => false
  | .counts _ _ => true

/-- The per-cell count function of a counter outcome. -/
def cellCountsOf (e : Except RErr CountOut) : List Nat → Nat :=
  match e with
  | .ok (.counts _ fn) => fn
  | _ => fun _ => 0

/-- The accumulation pass of the masked counter: for each operand element
in iteration order, add its mask byte (1 when exposed, 0 when hidden) into
the output cell it maps to. -/
def countAccumulate (axis_flags : List Bool) (exposed : List Nat → Bool) :
    List (List Nat) → (List Nat → Nat) → (List Nat → Nat)
  | [], acc => acc
  | idx :: rest, acc =>
      countAccumulate axis_flags exposed rest
        (fun cell =>
          if cell = cellOf axis_flags idx then
            acc cell + (if exposed idx then 1 else 0)
          else acc cell)

/-- Sum of the per-cell counts over a list of output cells. -/
def sumOverCells (fn : List Nat → Nat) (cells : List (List Nat)) : Nat :=
  (cells.map fn).sum

/-- Element size of the `NPY_INTP` dtype used for the counts array. -/
def intpSize : Nat := 8

/-- `PyArray_CountReduceItems`: with no mask or NAs propagating, the scalar
product of the reduced-axis sizes; otherwise reject structured element
types and non-boolean mask channels, then allocate an integer result,
zero it, and accumulate one count per exposed element into its output
cell, finally stripping the reduced axes unless `keepdims`. -/
def PyArray_CountReduceItems (operand : Arr) (axis_flags : List Bool)
    (skipna keepdims : Bool) (hasFields maskIsBool : Bool)
    (mmask : Int → Bool) : Except RErr CountOut :=
  if !skipna || !operand.hasMask then
    .ok (.scalar ((List.zipWith (fun f n => if f then n else 1) axis_flags
        operand.shape).prod))
  else if hasFields then .error .unimplemented
  else if !maskIsBool then .error .unimplemented
  else
    let result0 := allocate_reduce_result operand axis_flags intpSize
    let fn := countAccumulate axis_flags (exposedAt operand mmask)
        (enumIndices operand.shape) (fun _ => 0)
    let result := if keepdims then result0 else removeAxes result0 axis_flags
    .ok (.counts result fn)

/-! ## Claim C1: the scattered seeder -/

/-- C1 (code bug exhibit).  Operand of shape 2×2, both axes flagged,
skipna with a mask exposing exactly the elements (0,0) and (1,1): the
scattered seeder succeeds, seeds the single output cell from the first
exposed element (0,0) in iteration order, and reports the result's mask as
set fully exposed — but the returned private operand view's mask still
EXPOSES the seeded element (0,0).  The claim (and the C function's own
documentation, which says the seeded element "is masked as an NA in the
view of 'operand'") requires it to be hidden; the C loop never stores to
`op_namask_d`, so the main loop would revisit the seed. -/
theorem C1_scattered_seeder_keeps_seed_exposed :
    (initialize_reduce_result_noidentity_skipna (V := Nat) [2, 2] true 1
        [true, true] (fun idx => idx == [0, 0] || idx == [1, 1])
        (fun _ => 7)).toOption.map
      (fun o => (o.assigns.map Prod.fst, o.opViewExposed [0, 0],
                 o.resultMaskSetExposed))
      = some ([[0, 0]], true, true) := by
  decide

/-! ## Claim C5: the non-reorderable axis restriction -/

/-- C5 (counterexample).  A non-reorderable reduction over both axes of a
2×3 operand is indeed rejected with the non-reorderable error, but the
result allocation has already happened by the time the error is raised:
the trace of the failing call contains the allocation step.  This refutes
the claim's "no result allocation … has happened when the error is
raised". -/
theorem C5_rejection_after_allocation :
    PyArray_ReduceWrapper ⟨[2, 3], [3, 1], 0, false, [], 0⟩ none false
        [true, true] false false false false true true true false
        (fun _ => true) 4
      = { trace := [Ev.allocResult], outcome := .error .nonReorderable } := by
  decide

/-! ## Claim C2: the unmasked / non-skipna no-identity initializer -/

/-- C2.  On a non-empty operand reduced without skipna (or without a mask)
by a no-identity reduction, the initializer always copies the index-0
subarray along every reduction axis into the result; with two or more
flagged axes it returns the whole operand unchanged with the skip-first
count set to the number of output cells (the product of the result's
dimensions); with exactly one flagged axis it returns a view shrunk by one
along that axis with the data origin advanced by one stride and skip-first
count 0; with no flagged axis it returns an empty view. -/
theorem C2_initialize_unmasked_cases (result operand : Arr)
    (axis_flags : List Bool) (reorderable skipna : Bool) (mmask : Int → Bool)
    (hsk : skipna = false ∨ operand.hasMask = false)
    (hro : reorderable = true ∨ numReduceAxes axis_flags ≤ 1)
    (hnz : operand.shape.prod ≠ 0) :
    (2 ≤ numReduceAxes axis_flags →
      PyArray_InitializeReduceResult result operand axis_flags reorderable skipna mmask
        = .ok { copySrc := some { operand with shape := reducedShape axis_flags operand.shape },
                usedScattered := false, opView := operand,
                skipFirstCount := result.shape.prod })
    ∧ (numReduceAxes axis_flags = 1 →
      PyArray_InitializeReduceResult result operand axis_flags reorderable skipna mmask
        = .ok { copySrc := some { operand with shape := reducedShape axis_flags operand.shape },
                usedScattered := false,
                opView := { operand with
                  shape := List.zipWith (fun f d => if f then d - 1 else d)
                      axis_flags operand.shape,
                  dataOff := operand.dataOff +
                    (List.zipWith (fun f s => if f then s else 0)
                        axis_flags operand.strides).sum,
                  masknaOff := operand.masknaOff +
                    (if operand.hasMask then
                      (List.zipWith (fun f s => if f then s else 0)
                          axis_flags operand.masknaStrides).sum
                     else 0) },
                skipFirstCount := 0 })
    ∧ (numReduceAxes axis_flags = 0 →
      PyArray_InitializeReduceResult result operand axis_flags reorderable skipna mmask
        = .ok { copySrc := some { operand with shape := reducedShape axis_flags operand.shape },
                usedScattered := false,
                opView := { operand with
                  shape := List.replicate operand.shape.length 0 },
                skipFirstCount := 0 }) := by
  have hbr : (¬skipna ∨ ¬operand.hasMask) := by
    rcases hsk with h | h <;> simp [h]
  refine ⟨fun h2 => ?_, fun h1 => ?_, fun h0 => ?_⟩
  · have hro' : reorderable = true := by
      rcases hro with h | h
      · exact h
      · omega
    subst hro'
    simp only [PyArray_InitializeReduceResult, initCommonTail]
    rw [if_neg (by simp), if_pos hbr, if_neg hnz]
    rw [if_neg (by omega), if_neg (by omega)]
  · simp only [PyArray_InitializeReduceResult, initCommonTail]
    rw [if_neg (by simp [h1]), if_pos hbr, if_neg hnz, if_pos h1]
  · simp only [PyArray_InitializeReduceResult, initCommonTail]
    rw [if_neg (by simp [h0]), if_pos hbr, if_neg hnz,
        if_neg (by omega), if_pos h0]

/-- Witness for C2 at a concrete input: a 2×3 operand with both axes
flagged, whose initializer returns the whole operand with skip-first count
equal to the single output cell. -/
theorem C2_initialize_unmasked_cases_witness :
    PyArray_InitializeReduceResult ⟨[1, 1], [0, 0], 0, false, [], 0⟩
        ⟨[2, 3], [3, 1], 0, false, [], 0⟩ [true, true] true false
        (fun _ => true)
      = .ok { copySrc := some ⟨[1, 1], [3, 1], 0, false, [], 0⟩,
              usedScattered := false,
              opView := ⟨[2, 3], [3, 1], 0, false, [], 0⟩,
              skipFirstCount := 1 } := by
  have h := (C2_initialize_unmasked_cases ⟨[1, 1], [0, 0], 0, false, [], 0⟩
      ⟨[2, 3], [3, 1], 0, false, [], 0⟩ [true, true] true false
      (fun _ => true) (Or.inl rfl) (Or.inl rfl) (by decide)).1 (by decide)
  rw [h]
  decide

/-! ## Claim C3: the 1-D masked skipna initializer -/

/-- If every element is hidden, the 1-D scan walks past the whole array. -/
theorem scanSkip_all_hidden (mmask : Int → Bool) (mStride : Int) :
    ∀ (n : Nat) (mOff : Int),
      (∀ k < n, mmask (mOff + k * mStride) = false) →
      scanSkip mmask mOff mStride n = n := by
  intro n
  induction n with
  | zero => intro mOff _; rfl
  | succ m ih =>
      intro mOff h
      have h0 : mmask mOff = false := by simpa using h 0 (Nat.succ_pos m)
      simp only [scanSkip, h0, Bool.false_eq_true, if_false, Nat.add_right_cancel_iff]
      refine ih (mOff + mStride) (fun k hk => ?_)
      have hk1 := h (k + 1) (by omega)
      have heq : mOff + mStride + (k : Int) * mStride
          = mOff + ((k : Int) + 1) * mStride := by ring
      rw [heq]
      simpa using hk1

/-- The 1-D scan stops exactly at the first exposed element. -/
theorem scanSkip_first_exposed (mmask : Int → Bool) (mStride : Int) :
    ∀ (n j : Nat) (mOff : Int), j < n →
      mmask (mOff + j * mStride) = true →
      (∀ k < j, mmask (mOff + k * mStride) = false) →
      scanSkip mmask mOff mStride n = j := by
  intro n
  induction n with
  | zero => intro j mOff hj; omega
  | succ m ih =>
      intro j mOff hj hexp hbefore
      cases j with
      | zero =>
          have h0 : mmask mOff = true := by simpa using hexp
          simp [scanSkip, h0]
      | succ j' =>
          have h0 : mmask mOff = false := by
            simpa using hbefore 0 (Nat.succ_pos j')
          simp only [scanSkip, h0, Bool.false_eq_true, if_false,
            Nat.add_right_cancel_iff]
          refine ih j' (mOff + mStride) (by omega) ?_ ?_
          · have heq : mOff + mStride + (j' : Int) * mStride
                = mOff + ((j' : Int) + 1) * mStride := by ring
            rw [heq]
            simpa using hexp
          · intro k hk
            have hk1 := hbefore (k + 1) (by omega)
            have heq : mOff + mStride + (k : Int) * mStride
                = mOff + ((k : Int) + 1) * mStride := by ring
            rw [heq]
            simpa using hk1

/-- Sum of the flag-selected strides when the only axis is flagged. -/
theorem zipWith_single_true_sum (l : List Int) :
    (List.zipWith (fun f s => if f then s else 0) [true] l).sum = l.headD 0 := by
  cases l <;> simp


/-- C3.  A 1-D masked operand reduced with skipna by a no-identity
reduction: the initializer fails with the all-missing error exactly when
every element is hidden; otherwise, with the first exposed element at
position `j0`, it copies that element into the result (`copySrc` is the
one-element view at `j0`, the first exposed position being treated as
index 0) and returns the remainder view that starts one element past the
seed, with skip-first count 0. -/
theorem C3_initialize_1d_skipna (result operand : Arr) (n : Nat)
    (reorderable : Bool) (mmask : Int → Bool)
    (hshape : operand.shape = [n]) (hmask : operand.hasMask = true) :
    (PyArray_InitializeReduceResult result operand [true] reorderable true mmask
        = .error .allMissing
      ↔ ∀ k < n, mmask (operand.masknaOff + k * operand.masknaStrides.headD 0) = false)
    ∧ (∀ j0, j0 < n →
        mmask (operand.masknaOff + j0 * operand.masknaStrides.headD 0) = true →
        (∀ k < j0, mmask (operand.masknaOff + k * operand.masknaStrides.headD 0) = false) →
        PyArray_InitializeReduceResult result operand [true] reorderable true mmask
          = .ok { copySrc := some { operand with
                    shape := [1],
                    dataOff := operand.dataOff + j0 * operand.strides.headD 0,
                    masknaOff := operand.masknaOff + j0 * operand.masknaStrides.headD 0 },
                  usedScattered := false,
                  opView := { operand with
                    shape := [n - j0 - 1],
                    dataOff := operand.dataOff + j0 * operand.strides.headD 0
                      + operand.strides.headD 0,
                    masknaOff := operand.masknaOff + j0 * operand.masknaStrides.headD 0
                      + operand.masknaStrides.headD 0 },
                  skipFirstCount := 0 }) := by
  have hnum : numReduceAxes [true] = 1 := by decide
  have hok : ∀ j0, j0 < n →
      mmask (operand.masknaOff + j0 * operand.masknaStrides.headD 0) = true →
      (∀ k < j0, mmask (operand.masknaOff + k * operand.masknaStrides.headD 0) = false) →
      PyArray_InitializeReduceResult result operand [true] reorderable true mmask
        = .ok { copySrc := some { operand with
                  shape := [1],
                  dataOff := operand.dataOff + j0 * operand.strides.headD 0,
                  masknaOff := operand.masknaOff + j0 * operand.masknaStrides.headD 0 },
                usedScattered := false,
                opView := { operand with
                  shape := [n - j0 - 1],
                  dataOff := operand.dataOff + j0 * operand.strides.headD 0
                    + operand.strides.headD 0,
                  masknaOff := operand.masknaOff + j0 * operand.masknaStrides.headD 0
                    + operand.masknaStrides.headD 0 },
                skipFirstCount := 0 } := by
    intro j0 hj0 hexp hbefore
    have hscan := scanSkip_first_exposed mmask (operand.masknaStrides.headD 0) n j0
        operand.masknaOff hj0 hexp hbefore
    simp only [PyArray_InitializeReduceResult, hshape, hmask, hnum, List.headD_cons,
      List.length_cons, List.length_nil, hscan, Bool.not_true, false_or]
    rw [if_neg (by simp), if_neg (by simp), if_pos (by norm_num), if_neg (by omega)]
    simp only [initCommonTail, hnum, reducedShape, List.zipWith_cons_cons,
      List.zipWith_nil_right, zipWith_single_true_sum, hmask, if_pos rfl,
      List.length_singleton, reduceIte]
  refine ⟨⟨?_, ?_⟩, hok⟩
  · intro herr
    by_contra hnot
    push_neg at hnot
    obtain ⟨k0, hk0, hkexp⟩ := hnot
    have hkexp' : mmask (operand.masknaOff + k0 * operand.masknaStrides.headD 0)
        = true := by
      cases hb : mmask (operand.masknaOff + k0 * operand.masknaStrides.headD 0)
      · exact absurd hb hkexp
      · rfl
    have hex : ∃ j : Nat, mmask (operand.masknaOff
        + (j : Int) * operand.masknaStrides.headD 0) = true := ⟨k0, hkexp'⟩
    have hj0exp := Nat.find_spec hex
    have hj0lt : Nat.find hex < n := lt_of_le_of_lt (Nat.find_min' hex hkexp') hk0
    have hj0min : ∀ k < Nat.find hex, mmask (operand.masknaOff
        + k * operand.masknaStrides.headD 0) = false := by
      intro k hk
      have hmin := Nat.find_min hex hk
      cases hb : mmask (operand.masknaOff + k * operand.masknaStrides.headD 0)
      · rfl
      · exact absurd hb hmin
    have := hok (Nat.find hex) hj0lt hj0exp hj0min
    rw [this] at herr
    exact Except.noConfusion herr
  · intro hall
    simp only [PyArray_InitializeReduceResult, hshape, hmask, hnum, List.headD_cons,
      List.length_cons, List.length_nil, Bool.not_true, false_or,
      scanSkip_all_hidden mmask (operand.masknaStrides.headD 0) n
        operand.masknaOff hall]
    rw [if_neg (by simp), if_neg (by simp), if_pos (by norm_num), if_pos (by omega)]

/-- Witness for C3 at a concrete input: a 5-element masked operand whose
elements 0 and 1 are hidden and element 2 is the first exposed one. -/
theorem C3_initialize_1d_skipna_witness :
    PyArray_InitializeReduceResult ⟨[1], [0], 0, false, [], 0⟩
        ⟨[5], [2], 100, true, [1], 10⟩ [true] true true (fun a => a ≥ 12)
      = .ok { copySrc := some ⟨[1], [2], 104, true, [1], 12⟩,
              usedScattered := false,
              opView := ⟨[2], [2], 106, true, [1], 13⟩,
              skipFirstCount := 0 } := by
  have h := (C3_initialize_1d_skipna ⟨[1], [0], 0, false, [], 0⟩
      ⟨[5], [2], 100, true, [1], 10⟩ 5 true (fun a => a ≥ 12) rfl rfl).2 2
      (by decide) (by decide) (by decide)
  rw [h]
  decide

/-! ## Claim C6: layout of the allocated result -/

/-- The non-flagged axes of an axis list, in order. -/
def nonFlaggedAxes (axis_flags : List Bool) (axes : List Nat) : List Nat :=
  axes.filter (fun i => !axis_flags.getD i false)

theorem insertByStride_perm (st : List Int) (i : Nat) (l : List Nat) :
    (insertByStride st i l).Perm (i :: l) := by
  induction l with
  | nil => exact List.Perm.refl _
  | cons j rest ih =>
      simp only [insertByStride]
      split
      · exact List.Perm.refl _
      · exact (ih.cons j).trans (List.Perm.swap i j rest)

theorem foldr_insertByStride_perm (st : List Int) (l : List Nat) :
    (l.foldr (insertByStride st) []).Perm l := by
  induction l with
  | nil => exact List.Perm.refl _
  | cons x xs ih =>
      exact (insertByStride_perm st x _).trans (ih.cons x)

theorem createSortedStridePerm_perm (n : Nat) (st : List Int) :
    (createSortedStridePerm n st).Perm (List.range n) :=
  foldr_insertByStride_perm st (List.range n)

theorem allocLoop_length (as : List Nat) (fl : List Bool) :
    ∀ (L : List Nat) (sh : List Nat) (st : List Int) (k : Nat),
      (allocLoop as fl L sh st k).1.length = sh.length ∧
      (allocLoop as fl L sh st k).2.length = st.length := by
  intro L
  induction L with
  | nil => intro sh st k; exact ⟨rfl, rfl⟩
  | cons i rest ih =>
      intro sh st k
      simp only [allocLoop]
      split
      · simpa using ih (sh.set i 1) (st.set i 0) k
      · simpa using ih sh (st.set i (k : Int)) (k * as.getD i 1)

theorem allocLoop_notmem (as : List Nat) (fl : List Bool) :
    ∀ (L : List Nat) (sh : List Nat) (st : List Int) (k : Nat) (j : Nat),
      j ∉ L →
      (allocLoop as fl L sh st k).1[j]? = sh[j]? ∧
      (allocLoop as fl L sh st k).2[j]? = st[j]? := by
  intro L
  induction L with
  | nil => intro sh st k j _; exact ⟨rfl, rfl⟩
  | cons i rest ih =>
      intro sh st k j hj
      have hij : i ≠ j := fun h => hj (h ▸ List.mem_cons_self i rest)
      have hjr : j ∉ rest := fun h => hj (List.mem_cons_of_mem i h)
      simp only [allocLoop]
      split
      · have h := ih (sh.set i 1) (st.set i 0) k j hjr
        rw [h.1, h.2, List.getElem?_set_ne hij, List.getElem?_set_ne hij]
        exact ⟨rfl, rfl⟩
      · have h := ih sh (st.set i (k : Int)) (k * as.getD i 1) j hjr
        rw [h.1, h.2, List.getElem?_set_ne hij]
        exact ⟨rfl, rfl⟩

theorem allocLoop_flagged (as : List Nat) (fl : List Bool) :
    ∀ (L : List Nat) (sh : List Nat) (st : List Int) (k : Nat) (i : Nat),
      L.Nodup → i ∈ L → fl.getD i false = true →
      i < sh.length → i < st.length →
      (allocLoop as fl L sh st k).1[i]? = some 1 ∧
      (allocLoop as fl L sh st k).2[i]? = some 0 := by
  intro L
  induction L with
  | nil => intro sh st k i _ h; exact absurd h (List.not_mem_nil i)
  | cons j rest ih =>
      intro sh st k i hnd hmem hflag hsh hst
      rcases List.mem_cons.mp hmem with heq | hmem'
      · subst heq
        have hjr : i ∉ rest := (List.nodup_cons.mp hnd).1
        simp only [allocLoop, hflag, if_true]
        have hnm := allocLoop_notmem as fl rest (sh.set i 1) (st.set i 0) k i hjr
        rw [hnm.1, hnm.2, List.getElem?_set_self hsh, List.getElem?_set_self hst]
        exact ⟨rfl, rfl⟩
      · have hnd' := (List.nodup_cons.mp hnd).2
        simp only [allocLoop]
        split
        · exact ih (sh.set j 1) (st.set j 0) k i hnd' hmem' hflag
            (by simpa using hsh) (by simpa using hst)
        · exact ih sh (st.set j (k : Int)) (k * as.getD j 1) i hnd' hmem' hflag hsh
            (by simpa using hst)

theorem allocLoop_shape_nonflagged (as : List Nat) (fl : List Bool) :
    ∀ (L : List Nat) (sh : List Nat) (st : List Int) (k : Nat) (i : Nat),
      fl.getD i false = false →
      (allocLoop as fl L sh st k).1[i]? = sh[i]? := by
  intro L
  induction L with
  | nil => intro sh st k i _; rfl
  | cons j rest ih =>
      intro sh st k i hflag
      by_cases hj : fl.getD j false
      · have hij : j ≠ i := by
          intro h
          subst h
          rw [hflag] at hj
          exact Bool.noConfusion hj
        simp only [allocLoop, hj, if_true]
        rw [ih (sh.set j 1) (st.set j 0) k i hflag, List.getElem?_set_ne hij]
      · simp only [allocLoop, if_neg hj]
        exact ih sh (st.set j (k : Int)) (k * as.getD j 1) i hflag

theorem allocLoop_strides_nonflagged (as : List Nat) (fl : List Bool) :
    ∀ (L : List Nat) (sh : List Nat) (st : List Int) (k : Nat),
      L.Nodup → (∀ i ∈ L, i < st.length) →
      ∀ (p i : Nat),
        (nonFlaggedAxes fl L)[p]? = some i →
        (allocLoop as fl L sh st k).2[i]? =
          some ((k : Int) *
            (((nonFlaggedAxes fl L).take p).map (fun j => (as.getD j 1 : Int))).prod) := by
  intro L
  induction L with
  | nil =>
      intro sh st k _ _ p i hp
      simp [nonFlaggedAxes] at hp
  | cons j rest ih =>
      intro sh st k hnd hlt p i hp
      have hnd' := (List.nodup_cons.mp hnd).2
      by_cases hj : fl.getD j false
      · have hfil : nonFlaggedAxes fl (j :: rest) = nonFlaggedAxes fl rest := by
          unfold nonFlaggedAxes
          exact List.filter_cons_of_neg (by rw [hj]; decide)
        rw [hfil] at hp
        simp only [allocLoop, hj, if_true]
        rw [ih (sh.set j 1) (st.set j 0) k hnd'
          (fun i2 hi2 => by simpa using hlt i2 (List.mem_cons_of_mem j hi2)) p i hp]
        rw [hfil]
      · have hj' : fl.getD j false = false := by
          cases h : fl.getD j false
          · rfl
          · exact absurd h hj
        have hfil : nonFlaggedAxes fl (j :: rest) = j :: nonFlaggedAxes fl rest := by
          unfold nonFlaggedAxes
          exact List.filter_cons_of_pos (by rw [hj']; decide)
        simp only [allocLoop, if_neg hj]
        rw [hfil] at hp
        rw [hfil]
        cases p with
        | zero =>
            simp only [List.getElem?_cons_zero, Option.some.injEq] at hp
            subst hp
            have hjr : j ∉ rest := (List.nodup_cons.mp hnd).1
            have hnm := allocLoop_notmem as fl rest sh (st.set j (k : Int))
              (k * as.getD j 1) j hjr
            rw [hnm.2, List.getElem?_set_self (hlt j (List.mem_cons_self j rest))]
            simp
        | succ p' =>
            simp only [List.getElem?_cons_succ] at hp
            rw [ih sh (st.set j (k : Int)) (k * as.getD j 1) hnd'
              (fun i2 hi2 => by simpa using hlt i2 (List.mem_cons_of_mem j hi2)) p' i hp]
            simp only [List.take_succ_cons, List.map_cons, List.prod_cons]
            congr 1
            push_cast
            ring

theorem reducedShape_getElem? (fl : List Bool) (sh : List Nat) (i : Nat)
    (hf : fl.length = sh.length) (hi : i < sh.length) :
    (reducedShape fl sh)[i]? = some (if fl.getD i false then 1 else sh.getD i 0) := by
  rw [reducedShape, List.getElem?_zipWith,
    List.getElem?_eq_getElem (show i < fl.length by omega),
    List.getElem?_eq_getElem hi,
    List.getD_eq_getElem fl false (by omega), List.getD_eq_getElem sh 0 hi]

theorem allocate_reduce_result_lengths (arr : Arr) (fl : List Bool) (elsize : Nat) :
    (allocate_reduce_result arr fl elsize).shape.length = arr.shape.length ∧
    (allocate_reduce_result arr fl elsize).strides.length = arr.shape.length := by
  have h := allocLoop_length arr.shape fl
    (createSortedStridePerm arr.shape.length arr.strides).reverse arr.shape
    (List.replicate arr.shape.length (0 : Int)) elsize
  simp only [allocate_reduce_result]
  exact ⟨h.1, by simpa using h.2⟩

theorem permRev_facts (n : Nat) (st : List Int) :
    ((createSortedStridePerm n st).reverse.Nodup) ∧
    (∀ i, i ∈ (createSortedStridePerm n st).reverse ↔ i < n) := by
  have hperm : (createSortedStridePerm n st).reverse.Perm (List.range n) :=
    (List.reverse_perm _).trans (createSortedStridePerm_perm n st)
  constructor
  · exact hperm.nodup_iff.mpr (List.nodup_range n)
  · intro i
    rw [hperm.mem_iff, List.mem_range]

theorem allocate_reduce_result_shape (arr : Arr) (fl : List Bool) (elsize : Nat)
    (hf : fl.length = arr.shape.length) :
    (allocate_reduce_result arr fl elsize).shape = reducedShape fl arr.shape := by
  have hlen := allocate_reduce_result_lengths arr fl elsize
  have hfacts := permRev_facts arr.shape.length arr.strides
  apply List.ext_getElem?
  intro i
  by_cases hi : i < arr.shape.length
  · rw [reducedShape_getElem? fl arr.shape i hf hi]
    by_cases hfl : fl.getD i false
    · have h := (allocLoop_flagged arr.shape fl
        (createSortedStridePerm arr.shape.length arr.strides).reverse arr.shape
        (List.replicate arr.shape.length (0 : Int)) elsize i hfacts.1
        ((hfacts.2 i).mpr hi) hfl hi (by simpa using hi)).1
      simp only [allocate_reduce_result]
      rw [h, if_pos hfl]
    · have hfl' : fl.getD i false = false := by
        cases hfl2 : fl.getD i false
        · rfl
        · exact absurd hfl2 hfl
      have h := allocLoop_shape_nonflagged arr.shape fl
        (createSortedStridePerm arr.shape.length arr.strides).reverse arr.shape
        (List.replicate arr.shape.length (0 : Int)) elsize i hfl'
      simp only [allocate_reduce_result]
      rw [h, if_neg hfl, List.getElem?_eq_getElem hi,
        List.getD_eq_getElem arr.shape 0 hi]
  · have hrs : (reducedShape fl arr.shape).length = arr.shape.length := by
      rw [reducedShape, List.length_zipWith, hf]
      omega
    rw [List.getElem?_eq_none (by omega : (reducedShape fl arr.shape).length ≤ i),
      List.getElem?_eq_none (by rw [hlen.1]; omega)]

theorem allocate_reduce_result_strides_flagged (arr : Arr) (fl : List Bool)
    (elsize : Nat) (i : Nat) (hi : i < arr.shape.length)
    (hfl : fl.getD i false = true) :
    (allocate_reduce_result arr fl elsize).strides[i]? = some 0 := by
  have hfacts := permRev_facts arr.shape.length arr.strides
  have h := (allocLoop_flagged arr.shape fl
      (createSortedStridePerm arr.shape.length arr.strides).reverse arr.shape
      (List.replicate arr.shape.length (0 : Int)) elsize i hfacts.1
      ((hfacts.2 i).mpr hi) hfl hi (by simpa using hi)).2
  simp only [allocate_reduce_result]
  exact h

theorem allocate_reduce_result_strides_nonflagged (arr : Arr) (fl : List Bool)
    (elsize : Nat) (p i : Nat)
    (hp : (nonFlaggedAxes fl
        (createSortedStridePerm arr.shape.length arr.strides).reverse)[p]? = some i) :
    (allocate_reduce_result arr fl elsize).strides[i]? =
      some ((elsize : Int) *
        (((nonFlaggedAxes fl
            (createSortedStridePerm arr.shape.length arr.strides).reverse).take p).map
          (fun j => (arr.shape.getD j 1 : Int))).prod) := by
  have hfacts := permRev_facts arr.shape.length arr.strides
  have h := allocLoop_strides_nonflagged arr.shape fl
      (createSortedStridePerm arr.shape.length arr.strides).reverse arr.shape
      (List.replicate arr.shape.length (0 : Int)) elsize hfacts.1
      (fun i2 hi2 => by simpa using (hfacts.2 i2).mp hi2) p i hp
  simp only [allocate_reduce_result]
  exact h

/-- C6.  The freshly allocated result has the operand's number of
dimensions; every flagged axis has size 1 and stride 0; and the non-flagged
axes receive contiguous strides in the order of increasing operand stride
magnitude (the reverse of the stride-sorted permutation): the axis at
position `p` of that order receives `elsize` times the product of the sizes
of the `p` axes assigned before it — in particular the innermost assigned
stride (`p = 0`) is exactly the element size. -/
theorem C6_allocate_reduce_result_layout (arr : Arr) (axis_flags : List Bool)
    (elsize : Nat) (hf : axis_flags.length = arr.shape.length) :
    (allocate_reduce_result arr axis_flags elsize).shape
        = reducedShape axis_flags arr.shape
    ∧ (∀ i, i < arr.shape.length → axis_flags.getD i false = true →
        (allocate_reduce_result arr axis_flags elsize).strides[i]? = some 0)
    ∧ (∀ p i, (nonFlaggedAxes axis_flags
          (createSortedStridePerm arr.shape.length arr.strides).reverse)[p]? = some i →
        (allocate_reduce_result arr axis_flags elsize).strides[i]? =
          some ((elsize : Int) * (((nonFlaggedAxes axis_flags
              (createSortedStridePerm arr.shape.length arr.strides).reverse).take p).map
            (fun j => (arr.shape.getD j 1 : Int))).prod)) :=
  ⟨allocate_reduce_result_shape arr axis_flags elsize hf,
   fun i hi hfl => allocate_reduce_result_strides_flagged arr axis_flags elsize i hi hfl,
   fun p i hp => allocate_reduce_result_strides_nonflagged arr axis_flags elsize p i hp⟩

/-- Witness for C6 at a concrete input: a 2×3 operand stored in Fortran
order (strides [1, 2]) with axis 1 flagged keeps its memory order: the
non-flagged axis 0 is innermost and receives stride `elsize`. -/
theorem C6_allocate_reduce_result_layout_witness :
    ([false, true] : List Bool).length = ([2, 3] : List Nat).length ∧
    (allocate_reduce_result ⟨[2, 3], [1, 2], 0, false, [], 0⟩ [false, true] 4).shape
      = reducedShape [false, true] [2, 3] :=
  ⟨by decide, (C6_allocate_reduce_result_layout ⟨[2, 3], [1, 2], 0, false, [], 0⟩
      [false, true] 4 (by decide)).1⟩

/-! ## Claim C4: empty no-identity reductions -/

/-- A zero-size operand makes the broadcast iteration of (result, operand)
empty. -/
theorem broadcast_prod_zero (fl : List Bool) (sh : List Nat)
    (hf : fl.length = sh.length) (hsz : sh.prod = 0) :
    (List.zipWith broadcastDim (reducedShape fl sh) sh).prod = 0 := by
  rw [List.prod_eq_zero_iff] at hsz ⊢
  obtain ⟨k, hk, hk0⟩ := List.mem_iff_getElem.mp hsz
  have hrs : (reducedShape fl sh).length = sh.length := by
    rw [reducedShape, List.length_zipWith]
    omega
  have hzl : (List.zipWith broadcastDim (reducedShape fl sh) sh).length = sh.length := by
    rw [List.length_zipWith]
    omega
  apply List.mem_iff_getElem.mpr
  refine ⟨k, by omega, ?_⟩
  rw [List.getElem_zipWith]
  have hget : (reducedShape fl sh)[k]? = some (if fl.getD k false then 1 else sh[k]) := by
    rw [reducedShape_getElem? fl sh k hf hk, List.getD_eq_getElem sh 0 hk]
  rw [List.getElem?_eq_getElem (by omega : k < (reducedShape fl sh).length)] at hget
  have hget2 := Option.some.inj hget
  rw [hget2]
  by_cases hfl : fl.getD k false
  · simp [hfl, broadcastDim, hk0]
  · simp [hfl, broadcastDim, hk0]

/-- C4.  A no-identity reduction of a zero-size operand with NAs
propagating (or no mask at all) raises the empty-reduction error in the
initializer, so no remainder view is produced; a reduction that has an
identity never reaches the no-identity initializer: the wrapper fills the
result with the identity and completes without raising the
empty-reduction error even on zero-size input. -/
theorem C4_empty_reduction :
    (∀ (result operand : Arr) (axis_flags : List Bool)
        (reorderable skipna : Bool) (mmask : Int → Bool),
      (skipna = false ∨ operand.hasMask = false) →
      (reorderable = true ∨ numReduceAxes axis_flags ≤ 1) →
      operand.shape.prod = 0 →
      PyArray_InitializeReduceResult result operand axis_flags reorderable
          skipna mmask = .error .emptyReduction)
    ∧ (∀ (operand : Arr) (axis_flags : List Bool)
        (reorderable skipna keepdims : Bool)
        (has_loop has_masked_loop has_advanced_masked_loop : Bool)
        (mmask : Int → Bool) (elsize : Nat),
      operand.hasMask = false →
      (reorderable = true ∨ numReduceAxes axis_flags ≤ 1) →
      operand.shape.prod = 0 →
      axis_flags.length = operand.shape.length →
      (PyArray_ReduceWrapper operand none false axis_flags reorderable skipna
          false keepdims true has_loop has_masked_loop has_advanced_masked_loop
          mmask elsize).outcome.isOk = true
      ∧ Ev.identityFill ∈ (PyArray_ReduceWrapper operand none false axis_flags
          reorderable skipna false keepdims true has_loop has_masked_loop
          has_advanced_masked_loop mmask elsize).trace) := by
  constructor
  · intro result operand axis_flags reorderable skipna mmask hsk hro hsz
    have hbr : (¬skipna ∨ ¬operand.hasMask) := by
      rcases hsk with h | h <;> simp [h]
    simp only [PyArray_InitializeReduceResult]
    rw [if_neg (by
        rintro ⟨hr, h2⟩
        rcases hro with h | h
        · exact hr h
        · omega), if_pos hbr, if_pos hsz]
  · intro operand axis_flags reorderable skipna keepdims has_loop has_masked_loop
      has_advanced_masked_loop mmask elsize hmask hro hsz hf
    have h0 : (List.zipWith broadcastDim
        (allocate_reduce_result operand axis_flags elsize).shape
        operand.shape).prod = 0 := by
      rw [allocate_reduce_result_shape operand axis_flags elsize hf]
      exact broadcast_prod_zero axis_flags operand.shape hf hsz
    simp only [PyArray_ReduceWrapper, Bool.false_eq_true, if_false,
      reduceWrapperMain, PyArray_CreateReduceResult, hmask, Bool.false_and,
      wrapperInit, if_true, Option.isSome_none]
    rw [if_neg (by
        rintro ⟨hr, h2⟩
        rcases hro with h | h
        · exact hr h
        · omega)]
    simp [wrapperLoop, h0, Except.isOk, Except.toBool]

/-- Witness for C4 at a concrete input: a zero-size 1-D operand; the
no-identity initializer raises the empty-reduction error, while the
identity-based wrapper call performs the identity fill. -/
theorem C4_empty_reduction_witness :
    PyArray_InitializeReduceResult ⟨[1], [0], 0, false, [], 0⟩
        ⟨[0], [4], 0, false, [], 0⟩ [true] true false (fun _ => true)
      = .error .emptyReduction
    ∧ Ev.identityFill ∈ (PyArray_ReduceWrapper ⟨[0], [4], 0, false, [], 0⟩ none
        false [true] true false false false true true true false
        (fun _ => true) 4).trace :=
  ⟨C4_empty_reduction.1 ⟨[1], [0], 0, false, [], 0⟩ ⟨[0], [4], 0, false, [], 0⟩
      [true] true false (fun _ => true) (Or.inl rfl) (Or.inl rfl) (by decide),
   (C4_empty_reduction.2 ⟨[0], [4], 0, false, [], 0⟩ [true] true false false
      true true false (fun _ => true) 4 rfl (Or.inl rfl) (by decide)
      (by decide)).2⟩

/-! ## Claim C10: skipna is inert without a mask -/

/-- Without a mask on the operand, the no-identity initializer ignores
skipna. -/
theorem initialize_skipna_irrelevant (result operand : Arr)
    (axis_flags : List Bool) (reorderable : Bool) (mmask : Int → Bool)
    (hmask : operand.hasMask = false) :
    PyArray_InitializeReduceResult result operand axis_flags reorderable true mmask
      = PyArray_InitializeReduceResult result operand axis_flags reorderable false mmask := by
  simp [PyArray_InitializeReduceResult, hmask]

/-- Without a mask on the operand, the wrapper body with masking dropped
ignores skipna. -/
theorem main_skipna_irrelevant (operand : Arr) (out : Option Arr)
    (axis_flags : List Bool) (reorderable keepdims : Bool)
    (has_assign_identity has_loop has_masked_loop has_advanced_masked_loop : Bool)
    (mmask : Int → Bool) (elsize : Nat) (hmask : operand.hasMask = false) :
    reduceWrapperMain false operand out axis_flags reorderable true keepdims
        has_assign_identity has_loop has_masked_loop has_advanced_masked_loop
        mmask elsize
      = reduceWrapperMain false operand out axis_flags reorderable false keepdims
        has_assign_identity has_loop has_masked_loop has_advanced_masked_loop
        mmask elsize := by
  have hinit : ∀ r : Arr,
      PyArray_InitializeReduceResult r operand axis_flags reorderable true mmask
        = PyArray_InitializeReduceResult r operand axis_flags reorderable false mmask :=
    fun r => initialize_skipna_irrelevant r operand axis_flags reorderable mmask hmask
  simp only [reduceWrapperMain, Bool.false_and, Bool.false_eq_true, if_false,
    wrapperInit, wrapperLoop, hinit, Bool.not_false, if_true]

/-- C10.  For an operand with no validity mask, enabling skipna changes
nothing: the whole reduction wrapper, the no-identity initializer and the
element counter return identical results for skipna on and off. -/
theorem C10_no_mask_skipna_noop (operand : Arr) (out : Option Arr)
    (axis_flags : List Bool) (reorderable keepdims hasFields maskIsBool : Bool)
    (has_assign_identity has_loop has_masked_loop has_advanced_masked_loop : Bool)
    (mmask : Int → Bool) (elsize : Nat) (result : Arr)
    (hmask : operand.hasMask = false) :
    PyArray_ReduceWrapper operand out false axis_flags reorderable true false
        keepdims has_assign_identity has_loop has_masked_loop
        has_advanced_masked_loop mmask elsize
      = PyArray_ReduceWrapper operand out false axis_flags reorderable false false
        keepdims has_assign_identity has_loop has_masked_loop
        has_advanced_masked_loop mmask elsize
    ∧ PyArray_InitializeReduceResult result operand axis_flags reorderable true mmask
      = PyArray_InitializeReduceResult result operand axis_flags reorderable false mmask
    ∧ PyArray_CountReduceItems operand axis_flags true keepdims hasFields
        maskIsBool mmask
      = PyArray_CountReduceItems operand axis_flags false keepdims hasFields
        maskIsBool mmask := by
  refine ⟨?_, initialize_skipna_irrelevant result operand axis_flags reorderable
      mmask hmask, ?_⟩
  · cases out with
    | none =>
        simp only [PyArray_ReduceWrapper, Bool.false_eq_true, if_false, hmask]
        exact main_skipna_irrelevant operand none axis_flags reorderable keepdims
          has_assign_identity has_loop has_masked_loop has_advanced_masked_loop
          mmask elsize hmask
    | some o =>
        simp only [PyArray_ReduceWrapper, Bool.false_eq_true, if_false, hmask,
          Bool.false_and]
        exact main_skipna_irrelevant operand (some o) axis_flags reorderable keepdims
          has_assign_identity has_loop has_masked_loop has_advanced_masked_loop
          mmask elsize hmask
  · simp [PyArray_CountReduceItems, hmask]

/-- Witness for C10 at a concrete input: a 2×2 unmasked operand reduced
over axis 0, identity path, skipna on and off coincide. -/
theorem C10_no_mask_skipna_noop_witness :
    PyArray_ReduceWrapper ⟨[2, 2], [2, 1], 0, false, [], 0⟩ none false
        [true, false] true true false false true true true false
        (fun _ => true) 4
      = PyArray_ReduceWrapper ⟨[2, 2], [2, 1], 0, false, [], 0⟩ none false
        [true, false] true false false false true true true false
        (fun _ => true) 4 :=
  (C10_no_mask_skipna_noop ⟨[2, 2], [2, 1], 0, false, [], 0⟩ none [true, false]
      true false false false true true true false (fun _ => true) 4
      ⟨[1, 2], [0, 4], 0, false, [], 0⟩ rfl).1

/-! ## Claim C9: the element counter -/

/-- Output cells of operand indices are valid result indices. -/
theorem cellOf_mem_enumIndices (fl : List Bool) :
    ∀ (sh : List Nat) (idx : List Nat), fl.length = sh.length →
      idx ∈ enumIndices sh → cellOf fl idx ∈ enumIndices (reducedShape fl sh) := by
  induction fl with
  | nil =>
      intro sh idx hf hidx
      cases sh with
      | nil =>
          simp only [enumIndices] at hidx
          simp [hidx, cellOf, reducedShape, enumIndices]
      | cons n rest => simp at hf
  | cons f fs ih =>
      intro sh idx hf hidx
      cases sh with
      | nil => simp at hf
      | cons n rest =>
          simp only [enumIndices, List.mem_flatMap, List.mem_range,
            List.mem_map] at hidx
          obtain ⟨i, hi, t, ht, rfl⟩ := hidx
          have hcell : cellOf (f :: fs) (i :: t)
              = (if f then 0 else i) :: cellOf fs t := rfl
          have hshape : reducedShape (f :: fs) (n :: rest)
              = (if f then 1 else n) :: reducedShape fs rest := rfl
          rw [hcell, hshape]
          simp only [enumIndices, List.mem_flatMap, List.mem_range, List.mem_map]
          refine ⟨if f then 0 else i, ?_, cellOf fs t, ih rest t (by simpa using hf) ht, rfl⟩
          cases f
          · simpa using hi
          · simp

/-- The enumeration of multi-indices has no duplicates. -/
theorem nodup_enumIndices : ∀ (sh : List Nat), (enumIndices sh).Nodup := by
  intro sh
  induction sh with
  | nil => simp [enumIndices]
  | cons n rest ih =>
      simp only [enumIndices]
      have hgen : ∀ (l : List Nat), l.Nodup →
          (l.flatMap (fun i => (enumIndices rest).map (i :: ·))).Nodup := by
        intro l
        induction l with
        | nil => intro _; simp
        | cons i restl ihl =>
            intro hnd
            have hnd' := (List.nodup_cons.mp hnd).2
            have hni : i ∉ restl := (List.nodup_cons.mp hnd).1
            show ((enumIndices rest).map (i :: ·)
                ++ restl.flatMap (fun j => (enumIndices rest).map (j :: ·))).Nodup
            refine List.Nodup.append ?_ (ihl hnd') ?_
            · exact ih.map (fun x y hxy => by injection hxy)
            · intro x hx hx'
              obtain ⟨t, _, rfl⟩ := List.mem_map.mp hx
              obtain ⟨j, hj, hmap⟩ := List.mem_flatMap.mp hx'
              obtain ⟨t', _, heq⟩ := List.mem_map.mp hmap
              have hji : j = i := by
                have := congrArg (fun l => List.headD l 0) heq
                simpa using this
              exact hni (hji ▸ hj)
      exact hgen (List.range n) (List.nodup_range n)

/-- What one accumulation pass leaves in each output cell: the original
contents plus one count per exposed element mapping to that cell. -/
theorem countAccumulate_apply (fl : List Bool) (exposed : List Nat → Bool) :
    ∀ (idxs : List (List Nat)) (acc : List Nat → Nat) (cell : List Nat),
      countAccumulate fl exposed idxs acc cell
        = acc cell + (idxs.filter
            (fun idx => decide (cell = cellOf fl idx) && exposed idx)).length := by
  intro idxs
  induction idxs with
  | nil => intro acc cell; simp [countAccumulate]
  | cons idx rest ih =>
      intro acc cell
      simp only [countAccumulate]
      rw [ih]
      by_cases hc : cell = cellOf fl idx
      · by_cases he : exposed idx
        · simp [hc, he, List.filter_cons]
          omega
        · simp [hc, he, List.filter_cons]
      · by_cases he : exposed idx
        · simp [hc, he, List.filter_cons]
        · simp [hc, he, List.filter_cons]

/-- Updating one existing cell adds exactly its increment to the total. -/
theorem sumOverCells_update (acc : List Nat → Nat) (c0 : List Nat) (w : Nat) :
    ∀ (cells : List (List Nat)), cells.Nodup → c0 ∈ cells →
      sumOverCells (fun cell => if cell = c0 then acc cell + w else acc cell) cells
        = sumOverCells acc cells + w := by
  have hnot : ∀ (cells : List (List Nat)), c0 ∉ cells →
      sumOverCells (fun cell => if cell = c0 then acc cell + w else acc cell) cells
        = sumOverCells acc cells := by
    intro cells
    induction cells with
    | nil => intro _; rfl
    | cons c rest ih =>
        intro hm
        have hc : c ≠ c0 := fun h => hm (h ▸ List.mem_cons_self c rest)
        have hr : c0 ∉ rest := fun h => hm (List.mem_cons_of_mem c h)
        have ih' := ih hr
        simp only [sumOverCells, List.map_cons, List.sum_cons] at ih' ⊢
        rw [if_neg hc, ih']
  intro cells
  induction cells with
  | nil => intro _ h; exact absurd h (List.not_mem_nil c0)
  | cons c rest ih =>
      intro hnd hm
      have hnd' := (List.nodup_cons.mp hnd).2
      rcases List.mem_cons.mp hm with heq | hm'
      · subst heq
        have hr : c0 ∉ rest := (List.nodup_cons.mp hnd).1
        have hn := hnot rest hr
        simp only [sumOverCells, List.map_cons, List.sum_cons, if_true] at hn ⊢
        rw [hn]
        omega
      · have hc : c ≠ c0 := fun h => (List.nodup_cons.mp hnd).1 (h ▸ hm')
        have ih' := ih hnd' hm'
        simp only [sumOverCells, List.map_cons, List.sum_cons] at ih' ⊢
        rw [if_neg hc, ih']
        omega

/-- Summed over all output cells, one accumulation pass adds exactly one
count per exposed operand element. -/
theorem sumOverCells_countAccumulate (fl : List Bool) (exposed : List Nat → Bool) :
    ∀ (idxs : List (List Nat)) (acc : List Nat → Nat) (cells : List (List Nat)),
      cells.Nodup → (∀ idx ∈ idxs, cellOf fl idx ∈ cells) →
      sumOverCells (countAccumulate fl exposed idxs acc) cells
        = sumOverCells acc cells + (idxs.filter exposed).length := by
  intro idxs
  induction idxs with
  | nil => intro acc cells _ _; simp [countAccumulate, List.filter_nil]
  | cons idx rest ih =>
      intro acc cells hnd hmem
      simp only [countAccumulate]
      rw [ih _ cells hnd (fun i hi => hmem i (List.mem_cons_of_mem idx hi)),
        sumOverCells_update acc (cellOf fl idx) _ cells hnd
          (hmem idx (List.mem_cons_self idx rest))]
      by_cases he : exposed idx
      · simp [he, List.filter_cons]
        omega
      · simp [he, List.filter_cons]

/-- C9.  With no mask or NAs propagating, the element counter returns the
scalar product of the flagged axes' sizes.  With a mask and skipna, it
returns a counts array: each exposed operand element contributes exactly 1
to the cell it maps to (each cell holds the number of exposed elements of
its fiber), and the per-cell counts summed over all output cells equal the
total number of exposed operand elements. -/
theorem C9_count_reduce_items (operand : Arr) (axis_flags : List Bool)
    (skipna keepdims hasFields maskIsBool : Bool) (mmask : Int → Bool)
    (hf : axis_flags.length = operand.shape.length) :
    ((skipna = false ∨ operand.hasMask = false) →
      PyArray_CountReduceItems operand axis_flags skipna keepdims hasFields
          maskIsBool mmask
        = .ok (.scalar ((List.zipWith (fun f n => if f then n else 1)
            axis_flags operand.shape).prod)))
    ∧ (skipna = true → operand.hasMask = true → hasFields = false →
        maskIsBool = true →
      ((PyArray_CountReduceItems operand axis_flags skipna keepdims hasFields
          maskIsBool mmask).toOption.map CountOut.isCounts = some true)
      ∧ sumOverCells (cellCountsOf (PyArray_CountReduceItems operand axis_flags
            skipna keepdims hasFields maskIsBool mmask))
          (enumIndices (reducedShape axis_flags operand.shape))
          = ((enumIndices operand.shape).filter (exposedAt operand mmask)).length
      ∧ ∀ cell, cellCountsOf (PyArray_CountReduceItems operand axis_flags skipna
            keepdims hasFields maskIsBool mmask) cell
          = ((enumIndices operand.shape).filter
              (fun idx => decide (cell = cellOf axis_flags idx)
                && exposedAt operand mmask idx)).length) := by
  constructor
  · intro hsk
    have hcond : (!skipna || !operand.hasMask) = true := by
      rcases hsk with h | h <;> simp [h]
    simp only [PyArray_CountReduceItems]
    rw [if_pos hcond]
  · intro h1 h2 h3 h4
    subst h1
    subst h3
    subst h4
    have hcount : PyArray_CountReduceItems operand axis_flags true keepdims
        false true mmask
        = .ok (.counts
            (if keepdims then allocate_reduce_result operand axis_flags intpSize
             else removeAxes (allocate_reduce_result operand axis_flags intpSize)
               axis_flags)
            (countAccumulate axis_flags (exposedAt operand mmask)
              (enumIndices operand.shape) (fun _ => 0))) := by
      simp only [PyArray_CountReduceItems, h2]
      rw [if_neg (by simp), if_neg (by simp), if_neg (by simp)]
    refine ⟨by rw [hcount]; rfl, ?_, ?_⟩
    · rw [hcount]
      show sumOverCells (countAccumulate axis_flags (exposedAt operand mmask)
          (enumIndices operand.shape) (fun _ => 0))
          (enumIndices (reducedShape axis_flags operand.shape)) = _
      rw [sumOverCells_countAccumulate axis_flags (exposedAt operand mmask)
        (enumIndices operand.shape) (fun _ => 0)
        (enumIndices (reducedShape axis_flags operand.shape))
        (nodup_enumIndices _)
        (fun idx hidx => cellOf_mem_enumIndices axis_flags operand.shape idx hf hidx)]
      simp [sumOverCells]
    · intro cell
      rw [hcount]
      show countAccumulate axis_flags (exposedAt operand mmask)
          (enumIndices operand.shape) (fun _ => 0) cell = _
      rw [countAccumulate_apply]
      omega

/-- Witness for C9 at a concrete input: a 2×2 masked operand with one
hidden element (index (1,1)), reduced over axis 0 with skipna: the
per-cell counts sum to the 3 exposed elements. -/
theorem C9_count_reduce_items_witness :
    sumOverCells (cellCountsOf (PyArray_CountReduceItems
        ⟨[2, 2], [2, 1], 0, true, [2, 1], 0⟩ [true, false] true false false true
        (fun a => a != 3)))
      (enumIndices (reducedShape [true, false] [2, 2])) = 3 := by
  have h := ((C9_count_reduce_items ⟨[2, 2], [2, 1], 0, true, [2, 1], 0⟩
      [true, false] true false false true (fun a => a != 3) (by decide)).2
      rfl rfl rfl rfl).2.1
  rw [h]
  decide

/-! ## Claim C7: dropping the mask on the verified-NA-free fast path -/

/-- Forget an array's mask channel (the descriptor of the same array, were
its mask dropped). -/
def stripMaskArr (a : Arr) : Arr :=
  { a with hasMask := false, masknaStrides := [], masknaOff := 0 }

@[simp]
theorem stripMaskArr_shape (a : Arr) : (stripMaskArr a).shape = a.shape := rfl

@[simp]
theorem stripMaskArr_strides (a : Arr) : (stripMaskArr a).strides = a.strides := rfl

@[simp]
theorem stripMaskArr_dataOff (a : Arr) : (stripMaskArr a).dataOff = a.dataOff := rfl

@[simp]
theorem stripMaskArr_hasMask (a : Arr) : (stripMaskArr a).hasMask = false := rfl

@[simp]
theorem stripMaskArr_idem (a : Arr) : stripMaskArr (stripMaskArr a) = stripMaskArr a := rfl

/-- Forget the mask channels in an initializer outcome. -/
def stripMaskInitOut (io : InitOut) : InitOut :=
  { io with copySrc := io.copySrc.map stripMaskArr, opView := stripMaskArr io.opView }

/-- Forget the mask channels in a whole reduction call outcome. -/
def stripMaskWrapRes (r : WrapRes) : WrapRes :=
  { r with outcome := r.outcome.map (fun w =>
      { result := stripMaskArr w.result,
        loopCall := w.loopCall.map
          (fun lc => { lc with opView := stripMaskArr lc.opView }) }) }

/-- With NAs propagating, the no-identity initializer reads nothing through
the operand's mask: its outcome, mask channels forgotten, is the same for
the masked operand and for the operand with its mask dropped. -/
theorem initialize_strip_mask (result operand : Arr) (axis_flags : List Bool)
    (reorderable : Bool) (mmask : Int → Bool) :
    (PyArray_InitializeReduceResult result operand axis_flags reorderable
        false mmask).map stripMaskInitOut
      = (PyArray_InitializeReduceResult result (stripMaskArr operand) axis_flags
        reorderable false mmask).map stripMaskInitOut := by
  by_cases hck : ¬reorderable ∧ 2 ≤ numReduceAxes axis_flags
  · simp [PyArray_InitializeReduceResult, hck]
  · by_cases hsz : operand.shape.prod = 0
    · simp [PyArray_InitializeReduceResult, hck, hsz]
    · simp only [PyArray_InitializeReduceResult, if_neg hck, Bool.not_false,
        Bool.false_eq_true, not_false_eq_true, true_or, if_true,
        stripMaskArr_shape, stripMaskArr_hasMask, if_neg hsz]
      by_cases h1 : numReduceAxes axis_flags = 1
      · simp [initCommonTail, h1, stripMaskInitOut, stripMaskArr, Except.map]
      · by_cases h0 : numReduceAxes axis_flags = 0
        · simp [initCommonTail, h1, h0, stripMaskInitOut, stripMaskArr, Except.map]
        · simp [initCommonTail, h1, h0, stripMaskInitOut, stripMaskArr, Except.map]

/-- The unmasked inner-loop dispatch only looks at the remainder view's
shape, so two remainder views equal up to their mask channels give the same
stripped outcome. -/
theorem wrapperLoop_strip (out : Option Arr) (keepdims skipna : Bool)
    (axis_flags : List Bool) (hl hml haml : Bool) (tr : List Ev)
    (result op1 op2 : Arr) (skip : Nat)
    (h : stripMaskArr op1 = stripMaskArr op2) :
    stripMaskWrapRes (wrapperLoop false out keepdims skipna axis_flags
        hl hml haml tr result op1 skip)
      = stripMaskWrapRes (wrapperLoop false out keepdims skipna axis_flags
        hl hml haml tr result op2 skip) := by
  have hshape : op1.shape = op2.shape := by
    have h1 := congrArg Arr.shape h
    simpa using h1
  simp only [wrapperLoop, hshape, Bool.not_false, if_true]
  by_cases hit : (List.zipWith broadcastDim result.shape op2.shape).prod = 0
  · simp [hit]
  · by_cases hl' : hl
    · simp [hit, hl', stripMaskWrapRes, Except.map, h]
    · simp [hit, hl', stripMaskWrapRes]

/-- The initialization step with masking dropped, stripped of mask
channels, does not depend on the operand's mask channel. -/
theorem wrapperInit_strip (operand : Arr) (out : Option Arr)
    (axis_flags : List Bool) (reorderable keepdims : Bool)
    (hai hl hml haml : Bool) (mmask : Int → Bool) (tr : List Ev) (result : Arr) :
    stripMaskWrapRes (wrapperInit false operand out axis_flags reorderable
        false keepdims hai hl hml haml mmask tr result)
      = stripMaskWrapRes (wrapperInit false (stripMaskArr operand) out axis_flags
        reorderable false keepdims hai hl hml haml mmask tr result) := by
  by_cases hai' : hai
  · simp only [wrapperInit, hai', if_true]
    by_cases hck : ¬reorderable ∧ 2 ≤ numReduceAxes axis_flags
    · simp [hck]
    · simp only [if_neg hck]
      exact wrapperLoop_strip out keepdims false axis_flags hl hml haml
        (tr ++ [Ev.identityFill]) result operand (stripMaskArr operand) 0
        (stripMaskArr_idem operand).symm
  · have hai2 : hai = false := by
      cases h : hai
      · rfl
      · exact absurd h hai'
    simp only [wrapperInit, hai2, Bool.false_eq_true, if_false]
    have hrel := initialize_strip_mask result operand axis_flags reorderable mmask
    cases h1 : PyArray_InitializeReduceResult result operand axis_flags
        reorderable false mmask with
    | error e1 =>
        cases h2 : PyArray_InitializeReduceResult result (stripMaskArr operand)
            axis_flags reorderable false mmask with
        | error e2 =>
            rw [h1, h2] at hrel
            simp only [Except.map, Except.error.injEq] at hrel
            simp [hrel]
        | ok io2 =>
            rw [h1, h2] at hrel
            simp [Except.map] at hrel
    | ok io1 =>
        cases h2 : PyArray_InitializeReduceResult result (stripMaskArr operand)
            axis_flags reorderable false mmask with
        | error e2 =>
            rw [h1, h2] at hrel
            simp [Except.map] at hrel
        | ok io2 =>
            rw [h1, h2] at hrel
            simp only [Except.map, Except.ok.injEq] at hrel
            have hus : io1.usedScattered = io2.usedScattered := by
              have h3 := congrArg InitOut.usedScattered hrel
              simpa [stripMaskInitOut] using h3
            have hsh : io1.opView.shape = io2.opView.shape := by
              have h3 := congrArg (fun io => io.opView.shape) hrel
              simpa [stripMaskInitOut] using h3
            have hskip : io1.skipFirstCount = io2.skipFirstCount := by
              have h3 := congrArg InitOut.skipFirstCount hrel
              simpa [stripMaskInitOut] using h3
            have hops : stripMaskArr io1.opView = stripMaskArr io2.opView := by
              have h3 := congrArg InitOut.opView hrel
              simpa [stripMaskInitOut] using h3
            simp only [hus, hsh, hskip]
            by_cases hz : io2.opView.shape.prod = 0
            · simp [hz]
            · simp only [if_neg hz]
              exact wrapperLoop_strip out keepdims false axis_flags hl hml haml
                (tr ++ (if io2.usedScattered then [Ev.scatterSeed] else [Ev.copyFirst]))
                result io1.opView io2.opView io2.skipFirstCount hops

/-- Allocation ignores the mask channel of the operand. -/
theorem allocate_strip (operand : Arr) (axis_flags : List Bool) (elsize : Nat) :
    allocate_reduce_result (stripMaskArr operand) axis_flags elsize
      = allocate_reduce_result operand axis_flags elsize := rfl

/-- The wrapper body with masking dropped, stripped of mask channels, does
not depend on the operand's mask channel. -/
theorem main_strip_mask (operand : Arr) (out : Option Arr)
    (axis_flags : List Bool) (reorderable keepdims : Bool)
    (hai hl hml haml : Bool) (mmask : Int → Bool) (elsize : Nat) :
    stripMaskWrapRes (reduceWrapperMain false operand out axis_flags reorderable
        false keepdims hai hl hml haml mmask elsize)
      = stripMaskWrapRes (reduceWrapperMain false (stripMaskArr operand) out
        axis_flags reorderable false keepdims hai hl hml haml mmask elsize) := by
  cases out with
  | none =>
      simp only [reduceWrapperMain, PyArray_CreateReduceResult, Bool.false_and,
        Bool.false_eq_true, if_false, allocate_strip, Option.isSome_none]
      exact wrapperInit_strip operand none axis_flags reorderable keepdims
        hai hl hml haml mmask [Ev.allocResult] (allocate_reduce_result operand axis_flags elsize)
  | some o =>
      simp only [reduceWrapperMain, PyArray_CreateReduceResult, Bool.false_and,
        Bool.false_eq_true, false_and, if_false, stripMaskArr_shape,
        Option.isSome_some]
      cases h : conform_reduce_result operand.shape.length axis_flags o keepdims with
      | error e => simp [h]
      | ok r =>
          simp only [h]
          exact wrapperInit_strip operand (some o) axis_flags reorderable keepdims
            hai hl hml haml mmask [Ev.conformResult] r

/-- Every successful exit of the loop dispatch returns the finalized
result, and with masking dropped any inner loop that ran was the unmasked
one. -/
theorem wrapperLoop_ok (um : Bool) (out : Option Arr) (keepdims skipna : Bool)
    (axis_flags : List Bool) (hl hml haml : Bool) (tr : List Ev)
    (result opView : Arr) (skip : Nat) (w : WrapOut)
    (h : (wrapperLoop um out keepdims skipna axis_flags hl hml haml tr result
        opView skip).outcome = .ok w) :
    w.result = finishResult out keepdims axis_flags result
    ∧ (um = false → ∀ lc, w.loopCall = some lc →
        lc.variant = LoopVariant.unmasked) := by
  simp only [wrapperLoop] at h
  split_ifs at h with h1 h2 h3 h4 h5 <;>
  first
  | (simp at h; done)
  | (simp only [Except.ok.injEq] at h
     subst h
     refine ⟨rfl, fun hum lc hlc => ?_⟩
     first
     | (simp at hlc; done)
     | (subst hum
        exact absurd (by simp : (!false) = true) h2)
     | (injection hlc with hlc2
        rw [← hlc2]))

/-- Every successful exit of the initialization step returns the finalized
result; with masking dropped any inner loop that ran was the unmasked one. -/
theorem wrapperInit_ok (um : Bool) (operand : Arr) (out : Option Arr)
    (axis_flags : List Bool) (reorderable skipna keepdims : Bool)
    (hai hl hml haml : Bool) (mmask : Int → Bool) (tr : List Ev) (result : Arr)
    (w : WrapOut)
    (h : (wrapperInit um operand out axis_flags reorderable skipna keepdims
        hai hl hml haml mmask tr result).outcome = .ok w) :
    w.result = finishResult out keepdims axis_flags result
    ∧ (um = false → ∀ lc, w.loopCall = some lc →
        lc.variant = LoopVariant.unmasked) := by
  simp only [wrapperInit] at h
  by_cases hai' : hai
  · rw [if_pos hai'] at h
    by_cases hck : ¬reorderable ∧ 2 ≤ numReduceAxes axis_flags
    · rw [if_pos hck] at h
      simp at h
    · rw [if_neg hck] at h
      exact wrapperLoop_ok um out keepdims skipna axis_flags hl hml haml
        (tr ++ [Ev.identityFill]) result operand 0 w h
  · rw [if_neg hai'] at h
    cases hi : PyArray_InitializeReduceResult result operand axis_flags
        reorderable skipna mmask with
    | error e =>
        simp only [hi] at h
        simp at h
    | ok io =>
        simp only [hi] at h
        by_cases hz : io.opView.shape.prod = 0
        · rw [if_pos hz] at h
          simp only [Except.ok.injEq] at h
          subst h
          exact ⟨rfl, fun hum lc hlc => by simp at hlc⟩
        · rw [if_neg hz] at h
          exact wrapperLoop_ok um out keepdims skipna axis_flags hl hml haml
            (tr ++ (if io.usedScattered then [Ev.scatterSeed] else [Ev.copyFirst]))
            result io.opView io.skipFirstCount w h

/-- Every successful run of the wrapper body finalizes a result created by
`PyArray_CreateReduceResult`; with masking dropped any inner loop that ran
was the unmasked one. -/
theorem main_ok (um : Bool) (operand : Arr) (out : Option Arr)
    (axis_flags : List Bool) (reorderable skipna keepdims : Bool)
    (hai hl hml haml : Bool) (mmask : Int → Bool) (elsize : Nat) (w : WrapOut)
    (h : (reduceWrapperMain um operand out axis_flags reorderable skipna
        keepdims hai hl hml haml mmask elsize).outcome = .ok w) :
    ∃ r, PyArray_CreateReduceResult operand out axis_flags (um && !skipna)
        keepdims elsize = .ok r
      ∧ w.result = finishResult out keepdims axis_flags r
      ∧ (um = false → ∀ lc, w.loopCall = some lc →
          lc.variant = LoopVariant.unmasked) := by
  simp only [reduceWrapperMain] at h
  cases hc : PyArray_CreateReduceResult operand out axis_flags (um && !skipna)
      keepdims elsize with
  | error e =>
      simp only [hc] at h
      simp at h
  | ok r =>
      simp only [hc] at h
      refine ⟨r, rfl, ?_⟩
      by_cases hm : (um && !skipna) = true
      · rw [if_pos hm] at h
        by_cases hsc : shortCircuitAllNA operand r mmask haml = true
        · rw [if_pos hsc] at h
          simp only [Except.ok.injEq] at h
          subst h
          exact ⟨rfl, fun hum lc hlc => by simp at hlc⟩
        · rw [if_neg hsc] at h
          exact wrapperInit_ok um operand out axis_flags reorderable skipna
            keepdims hai hl hml haml mmask _ r w h
      · rw [if_neg hm] at h
        exact wrapperInit_ok um operand out axis_flags reorderable skipna
          keepdims hai hl hml haml mmask _ r w h

/-- C7.  Operand with a mask, NAs propagating, caller-supplied output
without a mask: if the operand holds any hidden element the call fails
with the mask-support error and produces nothing; otherwise masking is
dropped for the whole call — the call behaves, up to the forgotten mask
channels, exactly like the same call on the unmasked operand, and any
inner loop that runs is the unmasked fast-path loop. -/
theorem C7_mask_dropped_fast_path (operand o : Arr) (axis_flags : List Bool)
    (reorderable keepdims : Bool) (hai hl hml haml : Bool)
    (mmask : Int → Bool) (elsize : Nat)
    (hmask : operand.hasMask = true) (homask : o.hasMask = false) :
    (PyArray_ContainsNA operand mmask = true →
      PyArray_ReduceWrapper operand (some o) false axis_flags reorderable false
          false keepdims hai hl hml haml mmask elsize
        = { trace := [], outcome := .error .maskSupport })
    ∧ (PyArray_ContainsNA operand mmask = false →
      stripMaskWrapRes (PyArray_ReduceWrapper operand (some o) false axis_flags
          reorderable false false keepdims hai hl hml haml mmask elsize)
        = stripMaskWrapRes (PyArray_ReduceWrapper (stripMaskArr operand) (some o)
          false axis_flags reorderable false false keepdims hai hl hml haml
          mmask elsize))
    ∧ (∀ w lc,
        (PyArray_ReduceWrapper operand (some o) false axis_flags reorderable
          false false keepdims hai hl hml haml mmask elsize).outcome = .ok w →
        w.loopCall = some lc → lc.variant = LoopVariant.unmasked) := by
  refine ⟨?_, ?_, ?_⟩
  · intro hna
    simp only [PyArray_ReduceWrapper, Bool.false_eq_true, if_false, hmask,
      homask, Bool.not_false, Bool.not_true, Bool.and_true, Bool.true_and,
      hna, if_true]
  · intro hna
    simp only [PyArray_ReduceWrapper, Bool.false_eq_true, if_false, hmask,
      homask, Bool.not_false, Bool.not_true, Bool.and_true, Bool.true_and,
      hna, stripMaskArr_hasMask, Bool.false_and]
    exact main_strip_mask operand (some o) axis_flags reorderable keepdims
      hai hl hml haml mmask elsize
  · intro w lc h hlc
    by_cases hna : PyArray_ContainsNA operand mmask = true
    · simp only [PyArray_ReduceWrapper, Bool.false_eq_true, if_false, hmask,
        homask, Bool.not_false, Bool.not_true, Bool.and_true, Bool.true_and,
        hna, if_true] at h
      simp at h
    · have hna' : PyArray_ContainsNA operand mmask = false := by
        cases hb : PyArray_ContainsNA operand mmask
        · rfl
        · exact absurd hb hna
      simp only [PyArray_ReduceWrapper, Bool.false_eq_true, if_false, hmask,
        homask, Bool.not_false, Bool.not_true, Bool.and_true, Bool.true_and,
        hna'] at h
      obtain ⟨r, _, _, hvar⟩ := main_ok false operand (some o) axis_flags
        reorderable false keepdims hai hl hml haml mmask elsize w h
      exact hvar rfl lc hlc

/-- Witness for C7 at a concrete input: a fully-exposed masked 2-element
operand reduced into an unmasked output behaves like the unmasked
operand. -/
theorem C7_mask_dropped_fast_path_witness :
    stripMaskWrapRes (PyArray_ReduceWrapper ⟨[2], [1], 0, true, [1], 100⟩
        (some ⟨[1], [1], 50, false, [], 0⟩) false [true] true false false true
        false true true false (fun _ => true) 4)
      = stripMaskWrapRes (PyArray_ReduceWrapper
        (stripMaskArr ⟨[2], [1], 0, true, [1], 100⟩)
        (some ⟨[1], [1], 50, false, [], 0⟩) false [true] true false false true
        false true true false (fun _ => true) 4) :=
  (C7_mask_dropped_fast_path ⟨[2], [1], 0, true, [1], 100⟩
      ⟨[1], [1], 50, false, [], 0⟩ [true] true true false true true false
      (fun _ => true) 4 rfl rfl).2.1 (by decide)

/-! ## Claim C8: finalization -/

/-- Removing the flagged axes of the pre-squeeze result shape gives back
the operand's non-flagged sizes. -/
theorem dropFlagged_reducedShape (fl : List Bool) : ∀ (sh : List Nat),
    fl.length = sh.length →
    dropFlagged fl (reducedShape fl sh) = dropFlagged fl sh := by
  induction fl with
  | nil =>
      intro sh hf
      cases sh with
      | nil => rfl
      | cons n rest => simp at hf
  | cons f fs ih =>
      intro sh hf
      cases sh with
      | nil => simp at hf
      | cons n rest =>
          have hr := ih rest (by simpa using hf)
          cases f
          · simp only [reducedShape, List.zipWith_cons_cons] at hr ⊢
            simp [dropFlagged, hr]
          · simp only [reducedShape, List.zipWith_cons_cons] at hr ⊢
            simp [dropFlagged, hr]

/-- The shape of a freshly created (allocated) result. -/
theorem createReduceResult_none_shape (operand : Arr) (axis_flags : List Bool)
    (nm keepdims : Bool) (elsize : Nat) (r : Arr)
    (hc : PyArray_CreateReduceResult operand none axis_flags nm keepdims elsize
        = .ok r)
    (hf : axis_flags.length = operand.shape.length) :
    r.shape = reducedShape axis_flags operand.shape := by
  simp only [PyArray_CreateReduceResult, Except.ok.injEq] at hc
  subst hc
  cases nm
  · simp [allocate_reduce_result_shape operand axis_flags elsize hf]
  · show (allocate_reduce_result operand axis_flags elsize).shape = _
    exact allocate_reduce_result_shape operand axis_flags elsize hf

/-- C8.  Every successful reduction call returns: the caller's exact output
object when one was supplied (no axes stripped from it), and otherwise the
freshly allocated result with its size-1 reduced axes removed unless
`keepdims` keeps them. -/
theorem C8_finalize (operand : Arr) (out : Option Arr) (hw : Bool)
    (axis_flags : List Bool) (reorderable skipna hsw keepdims : Bool)
    (hai hl hml haml : Bool) (mmask : Int → Bool) (elsize : Nat) (w : WrapOut)
    (hf : axis_flags.length = operand.shape.length)
    (h : (PyArray_ReduceWrapper operand out hw axis_flags reorderable skipna
        hsw keepdims hai hl hml haml mmask elsize).outcome = .ok w) :
    (∀ o, out = some o → w.result = o)
    ∧ (out = none → w.result.shape =
        (if keepdims then reducedShape axis_flags operand.shape
         else dropFlagged axis_flags operand.shape)) := by
  simp only [PyArray_ReduceWrapper] at h
  by_cases hhw : hw = true
  · rw [if_pos hhw] at h
    simp at h
  · rw [if_neg hhw] at h
    by_cases hhsw : hsw = true
    · rw [if_pos hhsw] at h
      simp at h
    · rw [if_neg hhsw] at h
      cases out with
      | none =>
          obtain ⟨r, hc, hres, _⟩ := main_ok operand.hasMask operand none
            axis_flags reorderable skipna keepdims hai hl hml haml mmask
            elsize w h
          have hrs := createReduceResult_none_shape operand axis_flags
            (operand.hasMask && !skipna) keepdims elsize r hc hf
          refine ⟨fun o ho => by simp at ho, fun _ => ?_⟩
          rw [hres]
          by_cases hk : keepdims = true
          · simp only [finishResult, hk, if_true, hrs]
          · simp only [finishResult, hk, Bool.false_eq_true, if_false,
              removeAxes, hrs]
            exact dropFlagged_reducedShape axis_flags operand.shape hf
      | some o =>
          dsimp only at h
          have hfin : ∀ r : Arr, finishResult (some o) keepdims axis_flags r = o :=
            fun r => rfl
          by_cases hc1 : (operand.hasMask && !skipna && !o.hasMask) = true
          · rw [if_pos hc1] at h
            by_cases hna : PyArray_ContainsNA operand mmask = true
            · rw [if_pos hna] at h
              simp at h
            · rw [if_neg hna] at h
              obtain ⟨r, _, hres, _⟩ := main_ok false operand (some o)
                axis_flags reorderable skipna keepdims hai hl hml haml mmask
                elsize w h
              rw [hfin r] at hres
              exact ⟨fun o' ho' => by injection ho' with ho2; rw [← ho2, hres],
                fun hno => by simp at hno⟩
          · rw [if_neg hc1] at h
            obtain ⟨r, _, hres, _⟩ := main_ok operand.hasMask operand (some o)
              axis_flags reorderable skipna keepdims hai hl hml haml mmask
              elsize w h
            rw [hfin r] at hres
            exact ⟨fun o' ho' => by injection ho' with ho2; rw [← ho2, hres],
              fun hno => by simp at hno⟩

/-- Witness for C8 at a concrete input: a successful identity reduction
into a caller-supplied output returns that exact output descriptor. -/
theorem C8_finalize_witness :
    (WrapOut.mk ⟨[1], [1], 50, false, [], 0⟩
        (some ⟨LoopVariant.unmasked, ⟨[2], [1], 0, false, [], 0⟩, 0⟩)).result
      = (⟨[1], [1], 50, false, [], 0⟩ : Arr) :=
  (C8_finalize ⟨[2], [1], 0, false, [], 0⟩ (some ⟨[1], [1], 50, false, [], 0⟩)
      false [true] true false false true true true true false (fun _ => true) 4
      (WrapOut.mk ⟨[1], [1], 50, false, [], 0⟩
        (some ⟨LoopVariant.unmasked, ⟨[2], [1], 0, false, [], 0⟩, 0⟩))
      (by decide) (by decide)).1 ⟨[1], [1], 50, false, [], 0⟩ rfl

/-! ## Claim C5 (amended): placement of the non-reorderable rejection -/

/-- The scattered seeder only ever fails with the all-missing error. -/
theorem seeder_error_allMissing {V : Type} (shape : List Nat) (rhm : Bool)
    (ncells : Nat) (fl : List Bool) (exposed : List Nat → Bool)
    (value : List Nat → V) (e : RErr)
    (h : initialize_reduce_result_noidentity_skipna shape rhm ncells fl
        exposed value = .error e) :
    e = .allMissing := by
  unfold initialize_reduce_result_noidentity_skipna at h
  by_cases hz : (seedLoop fl exposed value (enumIndices shape) [] ncells).2 ≠ 0
  · rw [if_pos hz] at h
    injection h with h2
    exact h2.symm
  · rw [if_neg hz] at h
    simp at h

/-- Output conformance never raises the non-reorderable error. -/
theorem conform_no_nonreorderable (ndim : Nat) (fl : List Bool) (out : Arr)
    (keepdims : Bool) :
    conform_reduce_result ndim fl out keepdims ≠ .error .nonReorderable := by
  intro hcon
  unfold conform_reduce_result at hcon
  split_ifs at hcon <;> try simp at hcon
  all_goals try (split at hcon <;> try simp at hcon)
  all_goals (split at hcon <;> simp at hcon)

/-- The copy-and-shrink tail always succeeds. -/
theorem initCommonTail_ok (operand : Arr) (fl : List Bool)
    (opView result : Arr) (e : RErr) :
    initCommonTail operand fl opView result ≠ .error e := by
  unfold initCommonTail
  dsimp only
  split_ifs <;> simp

/-- With at most one flagged axis the initializer never raises the
non-reorderable error. -/
theorem initialize_no_nonreorderable (result operand : Arr)
    (axis_flags : List Bool) (skipna : Bool) (mmask : Int → Bool)
    (h1 : numReduceAxes axis_flags ≤ 1) :
    PyArray_InitializeReduceResult result operand axis_flags false skipna mmask
      ≠ .error .nonReorderable := by
  intro hcon
  simp only [PyArray_InitializeReduceResult,
    if_neg (by rintro ⟨_, h2⟩; omega :
      ¬(¬(false : Bool) ∧ 2 ≤ numReduceAxes axis_flags))] at hcon
  by_cases hb : (¬skipna ∨ ¬operand.hasMask)
  · rw [if_pos hb] at hcon
    by_cases hsz : operand.shape.prod = 0
    · rw [if_pos hsz] at hcon
      simp at hcon
    · rw [if_neg hsz] at hcon
      exact initCommonTail_ok _ _ _ _ _ hcon
  · rw [if_neg hb] at hcon
    by_cases hnd : operand.shape.length = 1
    · rw [if_pos hnd] at hcon
      by_cases hj : operand.shape.headD 0 - scanSkip mmask operand.masknaOff
          (operand.masknaStrides.headD 0) (operand.shape.headD 0) = 0
      · rw [if_pos hj] at hcon
        simp at hcon
      · rw [if_neg hj] at hcon
        exact initCommonTail_ok _ _ _ _ _ hcon
    · rw [if_neg hnd] at hcon
      split at hcon
      · rename_i e2 hseed
        injection hcon with h2
        rw [seeder_error_allMissing _ _ _ _ _ _ _ hseed] at h2
        exact RErr.noConfusion h2
      · simp at hcon

/-- The loop dispatch never raises the non-reorderable error. -/
theorem wrapperLoop_no_nonreorderable (um : Bool) (out : Option Arr)
    (keepdims skipna : Bool) (fl : List Bool) (hl hml haml : Bool)
    (tr : List Ev) (result opView : Arr) (skip : Nat) :
    (wrapperLoop um out keepdims skipna fl hl hml haml tr result opView
        skip).outcome ≠ .error .nonReorderable := by
  intro hcon
  simp only [wrapperLoop] at hcon
  split_ifs at hcon <;> simp at hcon

/-- Result creation never raises the non-reorderable error. -/
theorem createReduceResult_no_nonreorderable (operand : Arr) (out : Option Arr)
    (fl : List Bool) (nm keepdims : Bool) (elsize : Nat) :
    PyArray_CreateReduceResult operand out fl nm keepdims elsize
      ≠ .error .nonReorderable := by
  intro hcon
  unfold PyArray_CreateReduceResult at hcon
  cases out with
  | none => simp at hcon
  | some o =>
      dsimp only at hcon
      by_cases hne : nm ∧ ¬o.hasMask
      · rw [if_pos hne] at hcon
        simp at hcon
      · rw [if_neg hne] at hcon
        exact conform_no_nonreorderable _ _ _ _ hcon

/-- With at most one flagged axis the initialization step never raises the
non-reorderable error. -/
theorem wrapperInit_no_nonreorderable (um : Bool) (operand : Arr)
    (out : Option Arr) (fl : List Bool) (skipna keepdims : Bool)
    (hai hl hml haml : Bool) (mmask : Int → Bool) (tr : List Ev) (result : Arr)
    (h1 : numReduceAxes fl ≤ 1) :
    (wrapperInit um operand out fl false skipna keepdims hai hl hml haml mmask
        tr result).outcome ≠ .error .nonReorderable := by
  intro hcon
  simp only [wrapperInit] at hcon
  by_cases hai' : hai = true
  · rw [if_pos hai', if_neg (by rintro ⟨_, hx⟩; omega :
      ¬(¬(false : Bool) = true ∧ 2 ≤ numReduceAxes fl))] at hcon
    exact wrapperLoop_no_nonreorderable um out keepdims skipna fl hl hml haml
      (tr ++ [Ev.identityFill]) result operand 0 hcon
  · rw [if_neg hai'] at hcon
    cases hi : PyArray_InitializeReduceResult result operand fl false skipna
        mmask with
    | error e =>
        simp only [hi] at hcon
        simp only [Except.error.injEq] at hcon
        rw [hcon] at hi
        exact initialize_no_nonreorderable result operand fl skipna mmask h1 hi
    | ok io =>
        simp only [hi] at hcon
        by_cases hz : io.opView.shape.prod = 0
        · rw [if_pos hz] at hcon
          simp at hcon
        · rw [if_neg hz] at hcon
          exact wrapperLoop_no_nonreorderable um out keepdims skipna fl hl hml
            haml (tr ++ (if io.usedScattered then [Ev.scatterSeed]
              else [Ev.copyFirst])) result io.opView io.skipFirstCount hcon

/-- With at most one flagged axis the wrapper body never raises the
non-reorderable error. -/
theorem main_no_nonreorderable (um : Bool) (operand : Arr) (out : Option Arr)
    (fl : List Bool) (skipna keepdims : Bool) (hai hl hml haml : Bool)
    (mmask : Int → Bool) (elsize : Nat) (h1 : numReduceAxes fl ≤ 1) :
    (reduceWrapperMain um operand out fl false skipna keepdims hai hl hml haml
        mmask elsize).outcome ≠ .error .nonReorderable := by
  intro hcon
  simp only [reduceWrapperMain] at hcon
  cases hc : PyArray_CreateReduceResult operand out fl (um && !skipna) keepdims
      elsize with
  | error e =>
      simp only [hc] at hcon
      simp only [Except.error.injEq] at hcon
      rw [hcon] at hc
      exact createReduceResult_no_nonreorderable operand out fl _ keepdims
        elsize hc
  | ok r =>
      simp only [hc] at hcon
      by_cases hm : (um && !skipna) = true
      · rw [if_pos hm] at hcon
        by_cases hsc : shortCircuitAllNA operand r mmask haml = true
        · rw [if_pos hsc] at hcon
          simp at hcon
        · rw [if_neg hsc] at hcon
          exact wrapperInit_no_nonreorderable um operand out fl skipna keepdims
            hai hl hml haml mmask _ r h1 hcon
      · rw [if_neg hm] at hcon
        exact wrapperInit_no_nonreorderable um operand out fl skipna keepdims
          hai hl hml haml mmask _ r h1 hcon

/-- With two or more flagged axes, a non-reorderable reduction is rejected
as soon as the initialization step is reached. -/
theorem wrapperInit_nonreorderable_reject (um : Bool) (operand : Arr)
    (out : Option Arr) (fl : List Bool) (skipna keepdims : Bool)
    (hai hl hml haml : Bool) (mmask : Int → Bool) (tr : List Ev) (result : Arr)
    (h2 : 2 ≤ numReduceAxes fl) :
    wrapperInit um operand out fl false skipna keepdims hai hl hml haml mmask
        tr result = { trace := tr, outcome := .error .nonReorderable } := by
  have hck : (¬(false : Bool) = true ∧ 2 ≤ numReduceAxes fl) := ⟨by simp, h2⟩
  by_cases hai' : hai = true
  · simp only [wrapperInit]
    rw [if_pos hai', if_pos hck]
  · have hinit : PyArray_InitializeReduceResult result operand fl false skipna
        mmask = .error .nonReorderable := by
      simp only [PyArray_InitializeReduceResult, if_pos hck]
    simp only [wrapperInit]
    rw [if_neg hai', hinit]

/-- With two or more flagged axes and no all-NA short circuit, the wrapper
body of a non-reorderable reduction with no supplied output fails with the
non-reorderable error right after allocation (and mask pre-reduction). -/
theorem main_nonreorderable_reject (um : Bool) (operand : Arr) (fl : List Bool)
    (skipna keepdims : Bool) (hai hl hml haml : Bool) (mmask : Int → Bool)
    (elsize : Nat) (h2 : 2 ≤ numReduceAxes fl)
    (hsc : ∀ r, PyArray_CreateReduceResult operand none fl (um && !skipna)
        keepdims elsize = .ok r → (um && !skipna) = true →
        shortCircuitAllNA operand r mmask haml = false) :
    reduceWrapperMain um operand none fl false skipna keepdims hai hl hml haml
        mmask elsize
      = { trace := [Ev.allocResult]
            ++ (if (um && !skipna) = true then [Ev.maskReduce] else []),
          outcome := .error .nonReorderable } := by
  simp only [reduceWrapperMain]
  cases hc : PyArray_CreateReduceResult operand none fl (um && !skipna)
      keepdims elsize with
  | error e =>
      exact absurd hc (by simp [PyArray_CreateReduceResult])
  | ok r =>
      simp only [Option.isSome_none, Bool.false_eq_true, if_false]
      by_cases hm : (um && !skipna) = true
      · rw [if_pos hm, if_neg (by rw [hsc r hc hm]; simp)]
        rw [wrapperInit_nonreorderable_reject um operand none fl skipna keepdims
          hai hl hml haml mmask ([Ev.allocResult] ++ [Ev.maskReduce]) r h2]
        rw [if_pos hm]
      · rw [if_neg hm]
        rw [wrapperInit_nonreorderable_reject um operand none fl skipna keepdims
          hai hl hml haml mmask [Ev.allocResult] r h2]
        rw [if_neg hm]
        rfl

/-- C5 (amended).  For a non-reorderable reduction in a standard call
(no where-mask / multi-NA), requesting two or more flagged axes is
rejected with the non-reorderable error before any identity fill, element
copy, seeding, or loop run — but only after the result allocation (and
after the mask pre-reduction when masking is active; the all-NA
single-cell short circuit, excluded here, could even return first).  With
zero or one flagged axes this rejection never fires. -/
theorem C5_nonreorderable_amended :
    (∀ (operand : Arr) (axis_flags : List Bool) (skipna keepdims : Bool)
        (hai hl hml haml : Bool) (mmask : Int → Bool) (elsize : Nat),
      axis_flags.length = operand.shape.length →
      2 ≤ numReduceAxes axis_flags →
      (operand.hasMask = true → skipna = false →
        haml = true
        ∨ ((enumIndices operand.shape).any
            (fun idx => exposedAt operand mmask idx)) = true
        ∨ (reducedShape axis_flags operand.shape).prod ≠ 1) →
      (PyArray_ReduceWrapper operand none false axis_flags false skipna false
          keepdims hai hl hml haml mmask elsize).outcome
          = .error .nonReorderable
      ∧ Ev.allocResult ∈ (PyArray_ReduceWrapper operand none false axis_flags
          false skipna false keepdims hai hl hml haml mmask elsize).trace
      ∧ Ev.identityFill ∉ (PyArray_ReduceWrapper operand none false axis_flags
          false skipna false keepdims hai hl hml haml mmask elsize).trace
      ∧ Ev.copyFirst ∉ (PyArray_ReduceWrapper operand none false axis_flags
          false skipna false keepdims hai hl hml haml mmask elsize).trace
      ∧ Ev.scatterSeed ∉ (PyArray_ReduceWrapper operand none false axis_flags
          false skipna false keepdims hai hl hml haml mmask elsize).trace
      ∧ Ev.loopRun ∉ (PyArray_ReduceWrapper operand none false axis_flags
          false skipna false keepdims hai hl hml haml mmask elsize).trace)
    ∧ (∀ (operand : Arr) (out : Option Arr) (hw : Bool)
        (axis_flags : List Bool) (skipna hsw keepdims : Bool)
        (hai hl hml haml : Bool) (mmask : Int → Bool) (elsize : Nat),
      numReduceAxes axis_flags ≤ 1 →
      (PyArray_ReduceWrapper operand out hw axis_flags false skipna hsw
          keepdims hai hl hml haml mmask elsize).outcome
        ≠ .error .nonReorderable) := by
  constructor
  · intro operand fl skipna keepdims hai hl hml haml mmask elsize hf h2 hsem
    have hwr : PyArray_ReduceWrapper operand none false fl false skipna false
        keepdims hai hl hml haml mmask elsize
        = reduceWrapperMain operand.hasMask operand none fl false skipna
          keepdims hai hl hml haml mmask elsize := by
      simp only [PyArray_ReduceWrapper, Bool.false_eq_true, if_false]
    have hsc : ∀ r, PyArray_CreateReduceResult operand none fl
        (operand.hasMask && !skipna) keepdims elsize = .ok r →
        (operand.hasMask && !skipna) = true →
        shortCircuitAllNA operand r mmask haml = false := by
      intro r hr hm
      have hmask : operand.hasMask = true := by
        cases h : operand.hasMask
        · rw [h] at hm
          simp at hm
        · rfl
      have hsk : skipna = false := by
        cases h : skipna
        · rfl
        · rw [h] at hm
          simp [hmask] at hm
      have hshape := createReduceResult_none_shape operand fl
        (operand.hasMask && !skipna) keepdims elsize r hr hf
      rcases hsem hmask hsk with h | h | h
      · simp [shortCircuitAllNA, h]
      · simp [shortCircuitAllNA, h]
      · have hbeq : (r.shape.prod == 1) = false := by
          rw [hshape]
          exact beq_eq_false_iff_ne.mpr h
        simp [shortCircuitAllNA, hbeq]
    rw [hwr, main_nonreorderable_reject operand.hasMask operand fl skipna
      keepdims hai hl hml haml mmask elsize h2 hsc]
    by_cases hm : (operand.hasMask && !skipna) = true
    · rw [if_pos hm]
      exact ⟨rfl, by simp, by simp, by simp, by simp, by simp⟩
    · rw [if_neg hm]
      exact ⟨rfl, by simp, by simp, by simp, by simp, by simp⟩
  · intro operand out hw fl skipna hsw keepdims hai hl hml haml mmask elsize h1
    intro hcon
    simp only [PyArray_ReduceWrapper] at hcon
    by_cases hhw : hw = true
    · rw [if_pos hhw] at hcon
      simp at hcon
    · rw [if_neg hhw] at hcon
      by_cases hhsw : hsw = true
      · rw [if_pos hhsw] at hcon
        simp at hcon
      · rw [if_neg hhsw] at hcon
        cases out with
        | none =>
            exact main_no_nonreorderable operand.hasMask operand none fl skipna
              keepdims hai hl hml haml mmask elsize h1 hcon
        | some o =>
            dsimp only at hcon
            by_cases hcnd : (operand.hasMask && !skipna && !o.hasMask) = true
            · rw [if_pos hcnd] at hcon
              by_cases hna : PyArray_ContainsNA operand mmask = true
              · rw [if_pos hna] at hcon
                simp at hcon
              · rw [if_neg hna] at hcon
                exact main_no_nonreorderable false operand (some o) fl skipna
                  keepdims hai hl hml haml mmask elsize h1 hcon
            · rw [if_neg hcnd] at hcon
              exact main_no_nonreorderable operand.hasMask operand (some o) fl
                skipna keepdims hai hl hml haml mmask elsize h1 hcon

/-- Witness for the amended C5 at a concrete input: the non-reorderable
two-axis reduction of an unmasked 2×3 operand is rejected, with the
allocation already in the trace and no initialization or loop events. -/
theorem C5_nonreorderable_amended_witness :
    (PyArray_ReduceWrapper ⟨[2, 3], [3, 1], 0, false, [], 0⟩ none false
        [true, true] false false false false true true true false
        (fun _ => true) 4).outcome = .error .nonReorderable
    ∧ Ev.allocResult ∈ (PyArray_ReduceWrapper ⟨[2, 3], [3, 1], 0, false, [], 0⟩
        none false [true, true] false false false false true true true false
        (fun _ => true) 4).trace :=
  ⟨(C5_nonreorderable_amended.1 ⟨[2, 3], [3, 1], 0, false, [], 0⟩ [true, true]
      false false true true true false (fun _ => true) 4 (by decide) (by decide)
      (fun hm _ => by simp at hm)).1,
   (C5_nonreorderable_amended.1 ⟨[2, 3], [3, 1], 0, false, [], 0⟩ [true, true]
      false false true true true false (fun _ => true) 4 (by decide) (by decide)
      (fun hm _ => by simp at hm)).2.1⟩
